import Mathlib

/-!
Verification of the document-processing pipeline of
paperless-ngx-privatemode-ai (Go) against its natural-language
specification.

The Go source is shallowly embedded: pure fragments become Lean
functions; HTTP, JSON parsing and the interactive terminal are
modelled as explicit oracle parameters (a value or function standing
for the answer the external system gives); Go byte strings that are
sliced by byte index are modelled as `List UInt8`; other Go strings
are modelled as `String`; `float64` scores (compared only with `>`
and against the literal `0.0` in the code) are modelled as `Rat`.
Errors carried through Go `error` values are modelled as `String` or
as small inductive types where the claim refers to the error contents.
-/

namespace PaperlessAI

/-- Go `error` payloads; only the message text matters for the claims. -/
abbrev GoErr := String

/-- internal.Document (src/internal/paperless.go): id, title, content,
created date and optional document type. -/
structure Document where
  id : Int
  title : String
  content : String
  createdDate : String
  documentType : Option Int
deriving Repr, DecidableEq

/-- internal.Caption (src/internal/llm.go): a candidate title with a
float64 score, modelled as a rational. -/
structure Caption where
  caption : String
  score : Rat
deriving Repr, DecidableEq

/-- internal.CaptionResponse (src/internal/llm.go): summary plus captions. -/
structure CaptionResponse where
  summarize : String
  captions : List Caption
deriving Repr, DecidableEq

/-- internal.FilterType (src/internal/paperless.go): "title" or "content";
the Go type is a string, so an unknown value is possible and is kept as
a constructor carrying the raw string. -/
inductive FilterType where
  | title
  | content
  | unknown (raw : String)
deriving Repr, DecidableEq

/-- config.Filters: the two configured pattern lists
(config/config.go, used by FilterDocuments). -/
structure FiltersConfig where
  titlePattern : List String
  contentPattern : List String

/-- The regex engine behind regexp.Compile / MatchString, abstracted:
`compile` returns `none` when the pattern does not compile, otherwise
the match predicate of the compiled regex. -/
structure RegexEngine where
  compile : String → Option (String → Bool)

/-- Errors FilterDocuments can return, carrying the data the Go code
formats into the message (`invalid regex pattern '%s': %w` and
`unknown filter type: %s`). -/
inductive FilterError where
  | invalidPattern (pattern : String)
  | unknownFilterType (raw : String)
deriving Repr, DecidableEq

/-- Inner loop of FilterDocuments for one document
(src/internal/paperless.go lines 196-208): walk the patterns in order,
compile each, abort on a compile failure, stop at the first match.
Returns the offending pattern on failure, else whether any pattern
matched. -/
def scanPatterns (eng : RegexEngine) (targetText : String) :
    List String → Except String Bool
  | [] => .ok false
  | p :: ps =>
    match eng.compile p with
    | none => .error p
    | some matchString =>
      if matchString targetText then .ok true
      else scanPatterns eng targetText ps

/-- Document loop of FilterDocuments (src/internal/paperless.go lines
187-218), carrying the accumulated `filtered` slice. The Go function
returns the pair (slice, error); an error return carries a nil slice. -/
def filterLoop (eng : RegexEngine) (patterns : List String)
    (target : Document → String) (filtered : List Document) :
    List Document → Option (List Document) × Option FilterError
  | [] => (some filtered, none)
  | doc :: docs =>
    match scanPatterns eng (target doc) patterns with
    | .error p => (none, some (.invalidPattern p))
    | .ok true => filterLoop eng patterns target (filtered ++ [doc]) docs
    | .ok false => filterLoop eng patterns target filtered docs

/-- The text a document is matched against, per filter type
(src/internal/paperless.go lines 188-194); the unknown case is
unreachable because FilterDocuments returns before the loop then. -/
def filterTarget : FilterType → Document → String
  | .title, doc => doc.title
  | .content, doc => doc.content
  | .unknown _, _ => ""

/-- PaperlessClient.FilterDocuments (src/internal/paperless.go lines
169-219): resolve the pattern list from configuration by filter type,
then run the document loop. Progress-bar rendering is I/O only and is
not modelled. -/
def FilterDocuments (eng : RegexEngine) (cfg : FiltersConfig)
    (documents : List Document) (filterType : FilterType) :
    Option (List Document) × Option FilterError :=
  match filterType with
  | .title => filterLoop eng cfg.titlePattern (filterTarget .title) [] documents
  | .content => filterLoop eng cfg.contentPattern (filterTarget .content) [] documents
  | .unknown raw => (none, some (.unknownFilterType raw))

/-! ### The retry wrapper (src/internal/llm.go lines 86-106) -/

/-- An HTTP response as far as the retry wrapper observes it: status
code and body text. -/
structure HttpResponse where
  statusCode : Nat
  body : String
deriving Repr, DecidableEq

/-- Outcome of one `httpClient.Do(req)` call. Per the net/http contract
a failed call returns a nil `*http.Response` together with the error,
except when a redirect-policy check fails, in which case the response
is non-nil (with an already-closed body). `failure none e` is the
nil-response shape; `failure (some r) e` the redirect-check shape. -/
inductive DoResult where
  | success (resp : HttpResponse)
  | failure (resp : Option HttpResponse) (err : GoErr)
deriving Repr, DecidableEq

/-- What a run of doRequestWithRetry does: return a response, return the
wrapped connection error, or crash with a nil-pointer dereference.
`sleepsMs` records the back-off sleeps performed, in order. -/
inductive RetryOutcome where
  | ok (resp : HttpResponse) (sleepsMs : List Nat)
  | err (msg : GoErr) (sleepsMs : List Nat)
  | panicked (attempt : Nat) (sleepsMs : List Nat)
deriving Repr, DecidableEq

/-- Loop body of doRequestWithRetry (src/internal/llm.go lines 90-104).
`doAttempt n` is the oracle for the n-th `httpClient.Do(req)` call.
After a failed call the code runs `io.Copy(io.Discard, resp.Body)`
unconditionally; when the failure came with a nil response this is a
nil-pointer dereference, modelled as `panicked`. The `remaining` fuel
starts at maxRetries and the exhausted case is unreachable because the
`attempt < maxRetries` test returns first. -/
def retryGo (doAttempt : Nat → DoResult) (maxRetries : Nat) :
    Nat → Nat → List Nat → RetryOutcome
  | 0, _, sleeps => .err "unreachable" sleeps
  | remaining + 1, attempt, sleeps =>
    match doAttempt attempt with
    | .success r => .ok r sleeps
    | .failure none _ => .panicked attempt sleeps
    | .failure (some _) e =>
      if attempt < maxRetries then
        retryGo doAttempt maxRetries remaining (attempt + 1)
          (sleeps ++ [100 * attempt])
      else
        .err ("failed to connect after " ++ toString maxRetries
          ++ " attempts: " ++ e) sleeps

/-- LLMClient.doRequestWithRetry (src/internal/llm.go lines 86-106):
3 attempts, sleeping 100ms*attempt between failed attempts. -/
def doRequestWithRetry (doAttempt : Nat → DoResult) : RetryOutcome :=
  retryGo doAttempt 3 3 1 []

/-! ### Title generation (src/internal/llm.go lines 216-260)

Go strings are immutable byte sequences; `len` and slicing operate on
bytes. The document content, which the code slices by index, is
therefore modelled as `List UInt8`. -/

/-- A Go string as a byte sequence. -/
abbrev GoBytes := List UInt8

/-- The fields of config the title-generation path reads:
`Processing.TitleGeneration.TruncateCharactersOfContent` (a Go int,
so it can be negative) and `LLM.Models.TitleGeneration` (used by the
code both as the model id and as the prompt template). -/
structure TitleGenConfig where
  truncateCharactersOfContent : Int
  modelsTitleGeneration : GoBytes

/-- The truncation step (src/internal/llm.go lines 227-230):
`content = content[:TruncateCharactersOfContent]` when the limit is
positive and the byte length exceeds it. Go slicing cuts at a byte
index, so the cut can fall inside a multi-byte UTF-8 character. -/
def truncateContent (cfg : TitleGenConfig) (content : GoBytes) : GoBytes :=
  if 0 < cfg.truncateCharactersOfContent ∧
      cfg.truncateCharactersOfContent < (content.length : Int) then
    content.take cfg.truncateCharactersOfContent.toNat
  else
    content

/-- strings.ReplaceAll on byte strings, scanning left to right and
replacing non-overlapping occurrences. The Go function inserts `new`
between characters when `old` is empty; the code only ever replaces
the non-empty markers so that case returns the string unchanged here. -/
def replaceAllGo (fuel : Nat) (s old new : GoBytes) : GoBytes :=
  match fuel, s with
  | 0, s => s
  | _, [] => []
  | fuel + 1, b :: rest =>
    if old ≠ [] ∧ old.isPrefixOf (b :: rest) then
      new ++ replaceAllGo fuel ((b :: rest).drop old.length) old new
    else
      b :: replaceAllGo fuel rest old new

/-- The UTF-8 byte representation of the literal "{content}". -/
def contentMarker : GoBytes :=
  [0x7b, 0x63, 0x6f, 0x6e, 0x74, 0x65, 0x6e, 0x74, 0x7d]

/-- Prompt construction (src/internal/llm.go lines 232-235): the code
takes `config.LLM.Models.TitleGeneration` as the template and replaces
the "{content}" marker with the (truncated) content. (The second
ReplaceAll, of "{truncate_chars}" by the numeric limit, is not read by
any claim and is omitted.) -/
def buildTitlePrompt (cfg : TitleGenConfig) (content : GoBytes) : GoBytes :=
  replaceAllGo cfg.modelsTitleGeneration.length cfg.modelsTitleGeneration
    contentMarker (truncateContent cfg content)

/-- LLMClient.GenerateTitleFromContent (src/internal/llm.go lines
216-260). `send` is the oracle for sendStructuredChatRequest (the whole
HTTP exchange): given the prompt it yields the error or the first
choice message content. `parse` is the oracle for
`json.Unmarshal([]byte(response), &captionResp)`. The second component
counts how many chat requests were issued. -/
def GenerateTitleFromContent (cfg : TitleGenConfig)
    (send : GoBytes → Except GoErr String)
    (parse : String → Option CaptionResponse)
    (content : GoBytes) : Except GoErr CaptionResponse × Nat :=
  if content = [] then
    (.ok { summarize := "Empty document content"
           captions := [{ caption := "EMPTY_CONTENT", score := 0 }] }, 0)
  else
    match send (buildTitlePrompt cfg content) with
    | .error e => (.error ("failed to generate title: " ++ e), 1)
    | .ok response =>
      match parse response with
      | none =>
        (.ok { summarize := "Failed to parse LLM response"
               captions := [{ caption := response, score := 0 }] }, 1)
      | some captionResp =>
        if captionResp.captions.length = 0 then
          (.ok { summarize := captionResp.summarize
                 captions := [{ caption := response, score := 0 }] }, 1)
        else
          (.ok captionResp, 1)

/-- Modelled from the spec: "truncates content to a configured maximum
character count". Takes the first `m` UTF-8 characters of a byte
string, each character occupying the byte length its leading byte
declares. The code itself has no such operation; this definition only
gives the spec wording a meaning to compare against. -/
def specTakeChars : Nat → GoBytes → GoBytes
  | 0, _ => []
  | _, [] => []
  | m + 1, b :: rest =>
    let n := if b < 0x80 then 1 else if b < 0xC0 then 1
             else if b < 0xE0 then 2 else if b < 0xF0 then 3 else 4
    (b :: rest).take n ++ specTakeChars m ((b :: rest).drop n)

/-! ### Go sort.Slice on the caption slice

AskForTitleSelection (src/processor/user_actions.go lines 146-177),
askUserForTitleSelection (src/unnamed/part_006 lines 12-43) and both
pipeline loops sort captions with

  sort.Slice(captionResp.Captions, func(i, j int) bool {
      return captionResp.Captions[i].Score > captionResp.Captions[j].Score
  })

sort.Slice is Go's unstable sort; since Go 1.19 it runs the pdqsort of
src/sort/zsortfunc.go. That algorithm is deterministic and is embedded
here verbatim over a `List Caption` addressed by index (getD/set stand
for the element reads and Swap of the Go lessSwap closure). The
comparator: i is "less than" j when its score is strictly greater. -/

/-- Placeholder caption for out-of-range getD reads (never reached on
the in-range index arithmetic of the sort). -/
def dC : Caption := { caption := "", score := 0 }

/-- The sort.Slice comparator over captions: strictly greater score. -/
def lessC (x y : Caption) : Bool := decide (y.score < x.score)

/-- data.Less(i, j) of the lessSwap closure. -/
def lessAt (l : List Caption) (i j : Nat) : Bool :=
  lessC (l.getD i dC) (l.getD j dC)

/-- data.Swap(i, j) of the lessSwap closure. -/
def swapAt (l : List Caption) (i j : Nat) : List Caption :=
  (l.set i (l.getD j dC)).set j (l.getD i dC)

/-- Inner loop of insertionSort_func: bubble the element at `j` left
while `j > a` and it is less than its left neighbour. -/
def bubbleGo (a : Nat) : List Caption → Nat → List Caption
  | l, 0 => l
  | l, j + 1 =>
    if a < j + 1 ∧ lessAt l (j + 1) j = true then
      bubbleGo a (swapAt l (j + 1) j) j
    else l

/-- Outer loop of insertionSort_func: `steps` iterations starting at
index `i`. -/
def isortGo (a : Nat) : List Caption → Nat → Nat → List Caption
  | l, _, 0 => l
  | l, i, steps + 1 => isortGo a (bubbleGo a l i) (i + 1) steps

/-- insertionSort_func(data, a, b) of Go sort: straight insertion sort
on the range [a, b). -/
def insertionSort_func (l : List Caption) (a b : Nat) : List Caption :=
  isortGo a l (a + 1) (b - (a + 1))

/-- siftDown_func(data, lo, hi, first) of Go sort; the loop is bounded
by the range length, used as fuel. -/
def siftDownGo (first hi : Nat) : Nat → List Caption → Nat → List Caption
  | _, l, 0 => l
  | root, l, fuel + 1 =>
    let child := 2 * root + 1
    if hi ≤ child then l
    else
      let child := if child + 1 < hi ∧ lessAt l (first + child) (first + child + 1) = true
                   then child + 1 else child
      if lessAt l (first + root) (first + child) = true then
        siftDownGo first hi child (swapAt l (first + root) (first + child)) fuel
      else l

/-- First phase of heapSort_func: build the heap, i from (hi-1)/2 down
to 0. -/
def heapifyGo (first hi : Nat) : List Caption → Nat → List Caption
  | l, 0 => siftDownGo first hi 0 l hi
  | l, i + 1 => heapifyGo first hi (siftDownGo first hi (i + 1) l hi) i

/-- Second phase of heapSort_func: pop the maximum, i from hi-1 down
to 1 (the Go loop also runs i = 0, where the swap and sift are
no-ops). -/
def heapPopGo (first : Nat) : List Caption → Nat → List Caption
  | l, 0 => l
  | l, i + 1 =>
    heapPopGo first (siftDownGo first (i + 1) 0 (swapAt l first (first + i + 1)) (i + 1)) i

/-- heapSort_func(data, a, b) of Go sort. -/
def heapSort_func (l : List Caption) (a b : Nat) : List Caption :=
  if b - a = 0 then l else heapPopGo a (heapifyGo a (b - a) l ((b - a - 1) / 2)) (b - a - 1)

/-- order2_func of Go sort: order two indices by Less, counting swaps. -/
def order2Go (l : List Caption) (a b : Nat) (swaps : Nat) : Nat × Nat × Nat :=
  if lessAt l b a = true then (b, a, swaps + 1) else (a, b, swaps)

/-- median_func of Go sort: index of the median of three, counting
swaps. -/
def medianGo (l : List Caption) (a b c : Nat) (swaps : Nat) : Nat × Nat :=
  let (a, b, swaps) := order2Go l a b swaps
  let (b, _, swaps) := order2Go l b c swaps
  let (_, b, swaps) := order2Go l a b swaps
  (b, swaps)

/-- medianAdjacent_func of Go sort. -/
def medianAdjacentGo (l : List Caption) (a : Nat) (swaps : Nat) : Nat × Nat :=
  medianGo l (a - 1) a (a + 1) swaps

/-- The sortedHint of Go sort. -/
inductive SortedHint where
  | unknownHint
  | increasingHint
  | decreasingHint
deriving Repr, DecidableEq

/-- choosePivot_func(data, a, b) of Go sort: median (or ninther) based
pivot selection, with the swap count classifying the range as
increasing, decreasing or unknown. -/
def choosePivotGo (l : List Caption) (a b : Nat) : Nat × SortedHint :=
  let len := b - a
  let i := a + len / 4 * 1
  let j := a + len / 4 * 2
  let k := a + len / 4 * 3
  let (j, swaps) :=
    if 8 ≤ len then
      let (i, j, k, swaps) :=
        if 50 ≤ len then
          let (i, s1) := medianAdjacentGo l i 0
          let (j, s2) := medianAdjacentGo l j s1
          let (k, s3) := medianAdjacentGo l k s2
          (i, j, k, s3)
        else (i, j, k, 0)
      medianGo l i j k swaps
    else (j, 0)
  if swaps = 0 then (j, .increasingHint)
  else if swaps = 12 then (j, .decreasingHint)
  else (j, .unknownHint)

/-- reverseRange_func(data, a, b) of Go sort. -/
def reverseRangeGo : List Caption → Nat → Nat → Nat → List Caption
  | l, _, _, 0 => l
  | l, i, j, fuel + 1 =>
    if i < j then reverseRangeGo (swapAt l i j) (i + 1) (j - 1) fuel else l

/-- The `for i < b && !Less(i, i-1)` scan of partialInsertionSort_func. -/
def scanSortedGo (l : List Caption) (b : Nat) : Nat → Nat → Nat
  | i, 0 => i
  | i, fuel + 1 =>
    if i < b ∧ lessAt l i (i - 1) = false then scanSortedGo l b (i + 1) fuel else i

/-- The backward shift loop of partialInsertionSort_func
(`for j := i - 1; j >= 1; j--`). -/
def shiftBackGo : List Caption → Nat → List Caption
  | l, 0 => l
  | l, j + 1 =>
    if lessAt l (j + 1) j = false then l
    else shiftBackGo (swapAt l (j + 1) j) j

/-- The forward shift loop of partialInsertionSort_func
(`for j := i + 1; j < b; j++`). -/
def shiftFwdGo (b : Nat) : List Caption → Nat → Nat → List Caption
  | l, _, 0 => l
  | l, j, fuel + 1 =>
    if j < b ∧ lessAt l j (j - 1) = true then
      shiftFwdGo b (swapAt l j (j - 1)) (j + 1) fuel
    else l

/-- One maxSteps-bounded pass structure of Go sort, named with a
capital P to keep source correspondence recognisable: this is
partialInsertionSort_func(data, a, b), attempting to finish a nearly
sorted range with at most 5 adjacent-swap repairs; returns the list
and whether the range became sorted. -/
def insertionSortPartialGo (a b : Nat) : List Caption → Nat → Nat → List Caption × Bool
  | l, _, 0 => (l, false)
  | l, i, steps + 1 =>
    let i := scanSortedGo l b i (b - i + 1)
    if i = b then (l, true)
    else if b - a < 50 then (l, false)
    else
      let l := swapAt l i (i - 1)
      let l := if 2 ≤ i - a then shiftBackGo l (i - 1) else l
      let l := if 2 ≤ b - i then shiftFwdGo b l (i + 1) (b - i) else l
      insertionSortPartialGo a b l i steps

/-- xorshift random generator of Go sort (xorshift.Next). -/
def xorshiftNext (r : UInt64) : UInt64 :=
  let r := r ^^^ (r <<< 13)
  let r := r ^^^ (r >>> 7)
  r ^^^ (r <<< 17)

/-- nextPowerOfTwo of Go sort: 1 shifted left by bits.Len(length). -/
def nextPowerOfTwoGo (length : Nat) : Nat :=
  2 ^ (if length = 0 then 0 else Nat.log2 length + 1)

/-- breakPatterns_func(data, a, b) of Go sort: swap three elements near
the middle with pseudo-random partners. -/
def breakPatternsGo (l : List Caption) (a b : Nat) : List Caption :=
  let length := b - a
  if 8 ≤ length then
    let random0 : UInt64 := UInt64.ofNat length
    let modulus := nextPowerOfTwoGo length
    let idx := a + length / 4 * 2 - 1
    let r1 := xorshiftNext random0
    let o1 := r1.toNat % modulus
    let o1 := if length ≤ o1 then o1 - length else o1
    let l := swapAt l (idx - 1) (a + o1)
    let r2 := xorshiftNext r1
    let o2 := r2.toNat % modulus
    let o2 := if length ≤ o2 then o2 - length else o2
    let l := swapAt l idx (a + o2)
    let r3 := xorshiftNext r2
    let o3 := r3.toNat % modulus
    let o3 := if length ≤ o3 then o3 - length else o3
    swapAt l (idx + 1) (a + o3)
  else l

/-- The i-advance scan of partition_func (`for i <= j && Less(i, a)`). -/
def partScanI (l : List Caption) (a j : Nat) : Nat → Nat → Nat
  | i, 0 => i
  | i, fuel + 1 =>
    if i ≤ j ∧ lessAt l i a = true then partScanI l a j (i + 1) fuel else i

/-- The j-retreat scan of partition_func (`for i <= j && !Less(j, a)`). -/
def partScanJ (l : List Caption) (a i : Nat) : Nat → Nat → Nat
  | j, 0 => j
  | j, fuel + 1 =>
    if i ≤ j ∧ lessAt l j a = false then partScanJ l a i (j - 1) fuel else j

/-- The main exchange loop of partition_func. -/
def partLoopGo (a b : Nat) : List Caption → Nat → Nat → Nat → List Caption × Nat
  | l, _, j, 0 => (l, j)
  | l, i, j, fuel + 1 =>
    let i := partScanI l a j i (b + 1)
    let j := partScanJ l a i j (b + 1)
    if j < i then (l, j)
    else partLoopGo a b (swapAt l i j) (i + 1) (j - 1) fuel

/-- partition_func(data, a, b, pivot) of Go sort: move the pivot to
`a`, partition [a+1, b) around it, put the pivot back at the boundary.
Returns (list, newpivot, alreadyPartitioned). -/
def partitionGo (l : List Caption) (a b pivot : Nat) : List Caption × Nat × Bool :=
  let l := swapAt l a pivot
  let i := partScanI l a (b - 1) (a + 1) (b + 1)
  let j := partScanJ l a i (b - 1) (b + 1)
  if j < i then (swapAt l j a, j, true)
  else
    let l := swapAt l i j
    let (l, j) := partLoopGo a b l (i + 1) (j - 1) (b + 1)
    (swapAt l j a, j, false)

/-- The i-advance scan of partitionEqual_func
(`for i <= j && !Less(a, i)`). -/
def partEqScanI (l : List Caption) (a j : Nat) : Nat → Nat → Nat
  | i, 0 => i
  | i, fuel + 1 =>
    if i ≤ j ∧ lessAt l a i = false then partEqScanI l a j (i + 1) fuel else i

/-- The j-retreat scan of partitionEqual_func
(`for i <= j && Less(a, j)`). -/
def partEqScanJ (l : List Caption) (a i : Nat) : Nat → Nat → Nat
  | j, 0 => j
  | j, fuel + 1 =>
    if i ≤ j ∧ lessAt l a j = true then partEqScanJ l a i (j - 1) fuel else j

/-- The exchange loop of partitionEqual_func; returns (list, i). -/
def partEqLoopGo (a b : Nat) : List Caption → Nat → Nat → Nat → List Caption × Nat
  | l, i, _, 0 => (l, i)
  | l, i, j, fuel + 1 =>
    let i := partEqScanI l a j i (b + 1)
    let j := partEqScanJ l a i j (b + 1)
    if j < i then (l, i)
    else partEqLoopGo a b (swapAt l i j) (i + 1) (j - 1) fuel

/-- partitionEqual_func(data, a, b, pivot) of Go sort: partition into
elements equal to and greater than the pivot; returns (list, newpivot). -/
def partitionEqualGo (l : List Caption) (a b pivot : Nat) : List Caption × Nat :=
  let l := swapAt l a pivot
  partEqLoopGo a b l (a + 1) (b - 1) (b + 1)

/-- pdqsort_func(data, a, b, limit) of Go sort (Go 1.19+). The
iteration/recursion is bounded by `fuel`; every continuation shrinks
the range, so `fuel` larger than the range length never runs out. -/
def pdqsortGo : Nat → List Caption → Nat → Nat → Nat → Bool → Bool → List Caption
  | 0, l, _, _, _, _, _ => l
  | fuel + 1, l, a, b, limit, wasBalanced, wasPartitioned =>
    let length := b - a
    if length ≤ 12 then insertionSort_func l a b
    else if limit = 0 then heapSort_func l a b
    else
      let (l, limit) := if wasBalanced = false then (breakPatternsGo l a b, limit - 1)
                        else (l, limit)
      let (pivot, hint) := choosePivotGo l a b
      let (l, pivot, hint) :=
        if hint = .decreasingHint then
          (reverseRangeGo l a (b - 1) length, (b - 1) - (pivot - a), SortedHint.increasingHint)
        else (l, pivot, hint)
      let tryPartial := wasBalanced && wasPartitioned && decide (hint = .increasingHint)
      let (l, donePartial) :=
        if tryPartial = true then insertionSortPartialGo a b l (a + 1) 5 else (l, false)
      if donePartial then l
      else
        if 0 < a ∧ lessAt l (a - 1) pivot = false then
          let (l, mid) := partitionEqualGo l a b pivot
          pdqsortGo fuel l mid b limit wasBalanced wasPartitioned
        else
          let (l, mid, alreadyPartitioned) := partitionGo l a b pivot
          let wasPartitioned := alreadyPartitioned
          let leftLen := mid - a
          let rightLen := b - mid
          let balanceThreshold := length / 8
          let wasBalanced := balanceThreshold ≤ min leftLen rightLen
          if leftLen < rightLen then
            let l := pdqsortGo fuel l a mid limit true true
            pdqsortGo fuel l (mid + 1) b limit wasBalanced wasPartitioned
          else
            let l := pdqsortGo fuel l (mid + 1) b limit true true
            pdqsortGo fuel l a mid limit wasBalanced wasPartitioned

/-- bits.Len of Go, as used for the pdqsort depth limit. -/
def bitsLen (n : Nat) : Nat :=
  if n = 0 then 0 else Nat.log2 n + 1

/-- sort.Slice on a caption slice with the score comparator: the entry
point pdqsort_func(data, 0, length, bits.Len(uint(length))). -/
def goSortCaptions (l : List Caption) : List Caption :=
  pdqsortGo (l.length + 1) l 0 l.length (bitsLen l.length) true true

/-! ### The interactive title-selection step
(src/unnamed/part_006 lines 12-109, identical logic in
src/processor/user_actions.go AskForTitleSelection lines 146-243) -/

/-- processor.UserOption: a Go string type. -/
abbrev UserOption := String

/-- The empty Undefined option. -/
def Undefined : UserOption := ""

/-- The fixed "skip" option string. -/
def skipDocumentOption : UserOption := "Skip this document"

/-- The fixed "redo OCR" option string. -/
def makeOcrAndTryAgainOption : UserOption := "Make OCR and try again"

/-- The fixed "custom title" option string. -/
def customTitleOption : UserOption := "Enter custom title"

/-- unicode.IsSpace, as used by strings.TrimSpace: the Unicode
White_Space property (a fixed set of 25 code points). -/
def isGoSpace (c : Char) : Bool :=
  c = ' ' ∨ c = '\t' ∨ c = '\n' ∨ c.val = 11 ∨ c.val = 12 ∨ c = '\r' ∨
  c.val = 0x85 ∨ c.val = 0xA0 ∨ c.val = 0x1680 ∨
  (0x2000 ≤ c.val ∧ c.val ≤ 0x200A) ∨ c.val = 0x2028 ∨ c.val = 0x2029 ∨
  c.val = 0x202F ∨ c.val = 0x205F ∨ c.val = 0x3000

/-- strings.TrimSpace: drop leading and trailing White_Space runes. -/
def goTrimSpace (s : String) : String :=
  ⟨(s.data.dropWhile isGoSpace).reverse.dropWhile isGoSpace |>.reverse⟩

/-- The option label for one caption:
fmt.Sprintf("%d. %s (Score: %.2f)", i+1, caption, score). The numeric
score rendering is abstracted by `toString`; no claim reads it and the
labels stay pairwise distinct through the leading index either way. -/
def displayOption (i : Nat) (c : Caption) : String :=
  toString (i + 1) ++ ". " ++ c.caption ++ " (Score: " ++ toString c.score ++ ")"

/-- The caption slice as askUserForTitleSelection presents it: the
slice after the sort.Slice call (src/unnamed/part_006 lines 14-16). -/
def presentedCaptions (resp : CaptionResponse) : List Caption :=
  goSortCaptions resp.captions

/-- The option list shown to the operator (src/unnamed/part_006 lines
21-37): one labeled entry per sorted caption, then the three fixed
actions. -/
def buildTitleOptions (caps : List Caption) : List String :=
  caps.mapIdx displayOption ++
    [customTitleOption, skipDocumentOption, makeOcrAndTryAgainOption]

/-- The mapTitleToOptions map as an association list in insertion
order (keys are distinct thanks to the index prefix). -/
def mapTitleToOptions (caps : List Caption) : List (String × String) :=
  caps.mapIdx (fun i c => (displayOption i c, c.caption))

/-- One round of operator interaction: the result of the interactive
select `Show` call and, if reached, of the custom-title text input. -/
structure TitleRound where
  sel : Except GoErr String
  textInput : Except GoErr String

/-- askUserForTitleSelection (src/unnamed/part_006 lines 12-109):
sorts the captions, shows the options, and classifies the selection.
Returns the Go triple (UserOption, selected title, error) as an
`Except` since every error return carries no usable title. -/
def askUserForTitleSelection (resp : CaptionResponse) (round : TitleRound) :
    Except GoErr (UserOption × String) :=
  let sorted := presentedCaptions resp
  match round.sel with
  | .error e => .error ("failed to get user selection: " ++ e)
  | .ok selectedOption =>
    if selectedOption = "" then .error "no valid option selected"
    else
      let userOption : UserOption :=
        if selectedOption = skipDocumentOption then skipDocumentOption
        else if selectedOption = makeOcrAndTryAgainOption then makeOcrAndTryAgainOption
        else if selectedOption = customTitleOption then customTitleOption
        else Undefined
      if userOption = customTitleOption then
        match round.textInput with
        | .error e => .error ("failed to get custom title input: " ++ e)
        | .ok result =>
          if goTrimSpace result = "" then .ok (userOption, "")
          else .ok (userOption, goTrimSpace result)
      else if userOption ≠ Undefined then .ok (userOption, "")
      else
        match (mapTitleToOptions sorted).lookup selectedOption with
        | none => .error "selected option does not correspond to any title"
        | some customUserTitle =>
          if customUserTitle = "" then .error "no title found for selected option"
          else .ok (userOption, customUserTitle)

/-! ### Commits to the document store
(src/processor/headless_actions.go lines 20-60) -/

/-- A PATCH request issued to the document store. -/
inductive Patch where
  | title (docId : Int) (value : String)
  | content (docId : Int) (value : String)
deriving Repr, DecidableEq

/-- SetTitleOfPaperlessDocument (src/processor/headless_actions.go
lines 41-60): guards, then UpdateDocument. `updateResult` is the
oracle for the PATCH network call; the second component records the
PATCH requests actually issued. -/
def SetTitleOfPaperlessDocument (docId : Int) (title : String)
    (updateResult : Except GoErr Unit) : Except GoErr Unit × List Patch :=
  if docId ≤ 0 then (.error "invalid document ID", [])
  else if title = "" then (.error "title cannot be empty", [])
  else
    match updateResult with
    | .ok _ => (.ok (), [.title docId title])
    | .error e => (.error (e ++ "; failed to set document title"), [.title docId title])

/-- SetContentOfPaperlessDocument (src/processor/headless_actions.go
lines 20-39): same shape for the content field. -/
def SetContentOfPaperlessDocument (docId : Int) (content : String)
    (updateResult : Except GoErr Unit) : Except GoErr Unit × List Patch :=
  if docId ≤ 0 then (.error "invalid document ID", [])
  else if content = "" then (.error "content cannot be empty", [])
  else
    match updateResult with
    | .ok _ => (.ok (), [.content docId content])
    | .error e => (.error (e ++ "; failed to set document content"), [.content docId content])

/-- The external work one "redo OCR" iteration consumes:
OcrPaperlessDocument's result (extracted content and fresh captions),
the askUserForSetContent confirmation, and the network result of the
content PATCH if it is attempted. -/
structure RedoCtx where
  ocr : Except GoErr (String × CaptionResponse)
  askSetContent : Bool
  updateContent : Except GoErr Unit

/-- The user callback of SetTitleAction.Execute
(src/processor/user_actions_title.go lines 64-115), with its goto-based
re-ask loop driven by a finite interaction script (one TitleRound plus
one RedoCtx per loop iteration; an exhausted script behaves like a
failing prompt, which the code treats as skip). Returns the
(selectedTitle, confirmed) pair handed back to the pipeline and the
PATCH requests issued from inside the loop (the optional content
commit of the redo branch). -/
def titleSelectionCallback (doc : Document) :
    CaptionResponse → List (TitleRound × RedoCtx) → (String × Bool) × List Patch
  | _, [] => (("", false), [])
  | resp, (round, redo) :: rest =>
    match askUserForTitleSelection resp round with
    | .error _ => (("", false), [])
    | .ok (selectedOption, userSelectedTitle) =>
      if userSelectedTitle ≠ "" then ((userSelectedTitle, true), [])
      else if selectedOption = skipDocumentOption then (("", false), [])
      else if selectedOption = makeOcrAndTryAgainOption then
        match redo.ocr with
        | .error _ => (("", false), [])
        | .ok (ocrText, captions) =>
          if captions.captions.length = 0 then (("", false), [])
          else if redo.askSetContent then
            match SetContentOfPaperlessDocument doc.id ocrText redo.updateContent with
            | (.error _, ps) => (("", false), ps)
            | (.ok _, ps) =>
              let (r, ps2) := titleSelectionCallback doc captions rest
              (r, ps ++ ps2)
          else titleSelectionCallback doc captions rest
      else (("", false), [])

/-! ### The two pipeline loops -/

/-- processor.ProgressStats (src/processor/user_actions.go lines
419-425). -/
structure ProgressStats where
  total : Nat
  processed : Nat
  success : Nat
  errors : Nat
  skipped : Nat
deriving Repr, DecidableEq

/-- The initial statistics of a run over n documents. -/
def initStats (n : Nat) : ProgressStats :=
  { total := n, processed := 0, success := 0, errors := 0, skipped := 0 }

/-- Which branch of the per-document body of
processDocumentsForTitleGeneration fired. -/
inductive TitleBranch where
  | genError
  | noCaptions
  | skipped
  | updateFailed
  | updated
deriving Repr, DecidableEq

/-- The per-document oracle data of the title pipeline: the document,
the GenerateTitleFromContent outcome for its content, and the network
outcome of the title PATCH if one is attempted. -/
structure TitleDocCtx where
  doc : Document
  gen : Except GoErr CaptionResponse
  update : Except GoErr Unit

/-- The commit tail of the title-pipeline loop body
(src/processor/user_actions_title.go lines 179-187):
SetTitleOfPaperlessDocument, then errors++ or success++, processed++. -/
def commitTitle (ctx : TitleDocCtx) (stats : ProgressStats)
    (selectedTitle : String) (ps : List Patch) :
    ProgressStats × List Patch × TitleBranch :=
  match SetTitleOfPaperlessDocument ctx.doc.id selectedTitle ctx.update with
  | (.error _, ps2) =>
    ({ stats with errors := stats.errors + 1, processed := stats.processed + 1 },
      ps ++ ps2, .updateFailed)
  | (.ok _, ps2) =>
    ({ stats with success := stats.success + 1, processed := stats.processed + 1 },
      ps ++ ps2, .updated)

/-- One iteration of the processDocumentsForTitleGeneration loop
(src/processor/user_actions_title.go lines 129-188). The callback is
the interactive decision function (already bundled with the patches it
issues itself); it runs only when present and not autonomous. -/
def processTitleDoc (autonomous : Bool)
    (callback : Option (Document → CaptionResponse → (String × Bool) × List Patch))
    (ctx : TitleDocCtx) (stats : ProgressStats) :
    ProgressStats × List Patch × TitleBranch :=
  match ctx.gen with
  | .error _ =>
    ({ stats with errors := stats.errors + 1, processed := stats.processed + 1 },
      [], .genError)
  | .ok captions =>
    if captions.captions.length = 0 then
      ({ stats with errors := stats.errors + 1, processed := stats.processed + 1 },
        [], .noCaptions)
    else
      let sorted : CaptionResponse :=
        { captions with captions := goSortCaptions captions.captions }
      match callback, autonomous with
      | some cb, false =>
        let ((selectedTitle, userConfirmed), cbPatches) := cb ctx.doc sorted
        if userConfirmed = false then
          ({ stats with skipped := stats.skipped + 1, processed := stats.processed + 1 },
            cbPatches, .skipped)
        else commitTitle ctx stats selectedTitle cbPatches
      | _, _ =>
        let selectedTitle := (sorted.captions.headD dC).caption
        let selectedTitle :=
          if autonomous then selectedTitle ++ " (auto-generated)" else selectedTitle
        commitTitle ctx stats selectedTitle []

/-- The title-pipeline document loop from a given statistics value. -/
def titlePipelineFrom (autonomous : Bool)
    (callback : Option (Document → CaptionResponse → (String × Bool) × List Patch)) :
    ProgressStats → List TitleDocCtx → ProgressStats × List Patch
  | stats, [] => (stats, [])
  | stats, ctx :: rest =>
    let (stats1, ps, _) := processTitleDoc autonomous callback ctx stats
    let (statsN, ps2) := titlePipelineFrom autonomous callback stats1 rest
    (statsN, ps ++ ps2)

/-- processDocumentsForTitleGeneration
(src/processor/user_actions_title.go lines 118-192): statistics start
at total = len(documents) and the loop runs over every document. -/
def processDocumentsForTitleGeneration (autonomous : Bool)
    (callback : Option (Document → CaptionResponse → (String × Bool) × List Patch))
    (ctxs : List TitleDocCtx) : ProgressStats × List Patch :=
  titlePipelineFrom autonomous callback (initStats ctxs.length) ctxs

/-- Which branch of the per-document body of processOCRGeneration
fired. -/
inductive OcrBranch where
  | downloadError
  | renderError
  | ocrError
  | genError
  | noCaptions
  | skipped
  | updateFailed
  | updated
deriving Repr, DecidableEq

/-- The per-document oracle data of the OCR pipeline
(src/processor/user_actions.go lines 331-413): the document, the four
step outcomes and the network outcome of the content PATCH. -/
structure OcrDocCtx where
  doc : Document
  download : Except GoErr Unit
  render : Except GoErr Unit
  ocr : Except GoErr String
  gen : Except GoErr CaptionResponse
  update : Except GoErr Unit

/-- An errors++/processed++ step of the OCR loop. -/
def ocrErrStep (stats : ProgressStats) (br : OcrBranch) :
    ProgressStats × List Patch × OcrBranch :=
  ({ stats with errors := stats.errors + 1, processed := stats.processed + 1 }, [], br)

/-- One iteration of the processOCRGeneration loop
(src/processor/user_actions.go lines 331-413). -/
def processOcrDoc (callback : Option (Document → String → String → Bool))
    (ctx : OcrDocCtx) (stats : ProgressStats) :
    ProgressStats × List Patch × OcrBranch :=
  match ctx.download with
  | .error _ => ocrErrStep stats .downloadError
  | .ok _ =>
    match ctx.render with
    | .error _ => ocrErrStep stats .renderError
    | .ok _ =>
      match ctx.ocr with
      | .error _ => ocrErrStep stats .ocrError
      | .ok newContent =>
        match ctx.gen with
        | .error _ => ocrErrStep stats .genError
        | .ok captions =>
          if captions.captions.length = 0 then ocrErrStep stats .noCaptions
          else
            let sorted := goSortCaptions captions.captions
            let newTitle := (sorted.headD dC).caption
            let confirmed :=
              match callback with
              | some cb => cb ctx.doc newContent newTitle
              | none => true
            if confirmed = false then
              ({ stats with skipped := stats.skipped + 1,
                            processed := stats.processed + 1 }, [], .skipped)
            else
              match ctx.update with
              | .error _ =>
                ({ stats with errors := stats.errors + 1,
                              processed := stats.processed + 1 },
                  [.content ctx.doc.id newContent], .updateFailed)
              | .ok _ =>
                ({ stats with success := stats.success + 1,
                              processed := stats.processed + 1 },
                  [.content ctx.doc.id newContent], .updated)

/-- The OCR-pipeline document loop from a given statistics value. -/
def ocrPipelineFrom (callback : Option (Document → String → String → Bool)) :
    ProgressStats → List OcrDocCtx → ProgressStats × List Patch
  | stats, [] => (stats, [])
  | stats, ctx :: rest =>
    let (stats1, ps, _) := processOcrDoc callback ctx stats
    let (statsN, ps2) := ocrPipelineFrom callback stats1 rest
    (statsN, ps ++ ps2)

/-- processOCRGeneration (src/processor/user_actions.go lines 320-417). -/
def processOCRGeneration (callback : Option (Document → String → String → Bool))
    (ctxs : List OcrDocCtx) : ProgressStats × List Patch :=
  ocrPipelineFrom callback (initStats ctxs.length) ctxs

/-- Componentwise order on statistics, for the monotonicity claims. -/
def statsLE (s t : ProgressStats) : Prop :=
  s.total ≤ t.total ∧ s.processed ≤ t.processed ∧ s.success ≤ t.success ∧
    s.errors ≤ t.errors ∧ s.skipped ≤ t.skipped

/-- What processing `n` documents does to the statistics: total is
untouched, processed grows by exactly n, the outcome counters grow by
exactly n combined, and nothing decreases. -/
def statsStepN (n : Nat) (stats s : ProgressStats) : Prop :=
  s.total = stats.total ∧ s.processed = stats.processed + n ∧
    s.success + s.errors + s.skipped =
      stats.success + stats.errors + stats.skipped + n ∧
    statsLE stats s

/-! ### Reference descriptions of the sort, for the stability analysis -/

/-- Descending-score order between adjacent captions. -/
def geScore (a b : Caption) : Prop := b.score ≤ a.score

/-- A caption list sorted by score descending. -/
def sortedDesc (l : List Caption) : Prop := l.Pairwise geScore

/-- Stable insertion into a descending list: the new caption goes
before the first strictly lower score, hence after every caption of
equal or higher score. -/
def insertLe (c : Caption) : List Caption → List Caption
  | [] => [c]
  | x :: xs => if lessC c x then c :: x :: xs else x :: insertLe c xs

/-- Insert a whole list, left to right, into an accumulator. -/
def insertAllFrom (p : List Caption) (s : List Caption) : List Caption :=
  s.foldl (fun acc c => insertLe c acc) p

/-- The stable descending sort by score. -/
def stableSortGo (l : List Caption) : List Caption := insertAllFrom [] l

/-- The score-class of a caption list: the captions of score `s`, in
list order. Stability says every class is preserved verbatim. -/
def scoreClass (s : Rat) (l : List Caption) : List Caption :=
  l.filter (fun c => decide (c.score = s))

/-! ### Concrete inputs used by counterexamples and witnesses -/

/-- A regex engine fragment: "a" compiles (matches strings containing
the letter a, as Go regexp does), "(" does not compile (missing
closing parenthesis in Go regexp). -/
def cEngine : RegexEngine where
  compile p := if p = "a" then some (fun s => s.data.contains 'a') else none

/-- A document whose title matches the pattern "a". -/
def cDocA : Document :=
  { id := 1, title := "a", content := "", createdDate := "", documentType := none }

/-- A document whose title does not match the pattern "a". -/
def cDocB : Document :=
  { id := 2, title := "b", content := "", createdDate := "", documentType := none }

/-- A filter configuration whose title list has a valid pattern first
and a non-compiling pattern second. -/
def cFilters : FiltersConfig := { titlePattern := ["a", "("], contentPattern := [] }

/-- A 13-caption response: two score-5 captions (c0 before c3) and two
score-9 captions (c1 before c6) among 13 entries, the smallest length
on which sort.Slice leaves insertion sort for full pdqsort. -/
def ex13 : List Caption :=
  [{ caption := "c0", score := 5 }, { caption := "c1", score := 9 },
   { caption := "c2", score := 8 }, { caption := "c3", score := 5 },
   { caption := "c4", score := 7 }, { caption := "c5", score := 6 },
   { caption := "c6", score := 9 }, { caption := "c7", score := 10 },
   { caption := "c8", score := 3 }, { caption := "c9", score := 4 },
   { caption := "c10", score := 2 }, { caption := "c11", score := 1 },
   { caption := "c12", score := 0 }]

/-- The 13-caption response handed to the title-selection step. -/
def resp13 : CaptionResponse := { summarize := "s", captions := ex13 }

/-- A 3-caption response with one score tie (B1 before B2), within the
insertion-sort length range. -/
def resp3 : CaptionResponse :=
  { summarize := "s"
    captions := [{ caption := "B1", score := 1 }, { caption := "A", score := 2 },
                 { caption := "B2", score := 1 }] }

/-- A transport error as the Go http client reports one. -/
def connRefused : GoErr := "dial tcp 127.0.0.1:8080: connect: connection refused"

/-- A second transport error, for the redirect-failure shape. -/
def tooManyRedirects : GoErr := "stopped after 10 redirects"

/-- A non-2xx response. -/
def resp500 : HttpResponse := { statusCode := 500, body := "model overloaded" }

/-- A response as attached to a redirect-check failure (body already
closed). -/
def respRedirect : HttpResponse := { statusCode := 302, body := "" }

/-- A title-generation config whose template is just the content
marker, so the built prompt is the truncated content itself. -/
def cfgT : TitleGenConfig :=
  { truncateCharactersOfContent := 2, modelsTitleGeneration := contentMarker }

/-- A config with truncation limit 1, for the byte-slicing
counterexample. -/
def cfg1 : TitleGenConfig :=
  { truncateCharactersOfContent := 1, modelsTitleGeneration := [] }

/-- A config with truncation disabled (limit 0). -/
def cfg0 : TitleGenConfig :=
  { truncateCharactersOfContent := 0, modelsTitleGeneration := [] }

/-- UTF-8 bytes of a two-character string whose first character is the
two-byte U+00E9 followed by the ASCII letter a. -/
def eacuteA : GoBytes := [0xC3, 0xA9, 0x61]

/-- An ASCII content, bytes of "abc". -/
def contentABC : GoBytes := [0x61, 0x62, 0x63]

/-- A send oracle that always answers with a fixed unparsable body. -/
def sendRaw : GoBytes → Except GoErr String := fun _ => .ok "not json"

/-- A parse oracle on which json.Unmarshal fails. -/
def parseNone : String → Option CaptionResponse := fun _ => none

/-- A parse oracle that parses to a response with an empty captions
array. -/
def parseEmpty : String → Option CaptionResponse :=
  fun _ => some { summarize := "sum", captions := [] }

/-- An interaction round selecting custom-title entry and then typing
only a blank. -/
def roundCustomBlank : TitleRound :=
  { sel := .ok customTitleOption, textInput := .ok " " }

/-- A redo context that is never reached in the custom-blank scenario. -/
def redoUnused : RedoCtx :=
  { ocr := .error "unused", askSetContent := false, updateContent := .ok () }

/-- A document for the pipeline witnesses. -/
def docW : Document :=
  { id := 7, title := "old", content := "text", createdDate := "2024-01-01",
    documentType := none }

/-- A one-caption response for the pipeline witnesses. -/
def respW : CaptionResponse :=
  { summarize := "sum", captions := [{ caption := "T", score := 1 }] }

/-- The pipeline context of the custom-blank scenario: title generation
succeeded with one caption, the PATCH network call would succeed. -/
def ctxW : TitleDocCtx := { doc := docW, gen := .ok respW, update := .ok () }

/-! ## Theorems -/

/-! ### C1: the document filter and invalid patterns -/

/-- A pattern reported by the scan really does not compile. -/
theorem scanPatterns_error_compile {eng : RegexEngine} {target : String} :
    ∀ {ps : List String} {p : String},
      scanPatterns eng target ps = .error p → eng.compile p = none := by
  intro ps
  induction ps with
  | nil => intro p h; simp [scanPatterns] at h
  | cons q qs ih =>
    intro p h
    rcases hc : eng.compile q with _ | m
    · simp [scanPatterns, hc] at h
      exact h ▸ hc
    · by_cases hm : m target = true
      · simp [scanPatterns, hc, hm] at h
      · simp [scanPatterns, hc, hm] at h
        exact ih h

/-- The document loop errors exactly when some document scan reaches a
pattern that does not compile. -/
theorem filterLoop_isSome_iff (eng : RegexEngine) (patterns : List String)
    (target : Document → String) :
    ∀ (docs : List Document) (filtered : List Document),
      (filterLoop eng patterns target filtered docs).2.isSome = true ↔
        ∃ d ∈ docs, ∃ p, scanPatterns eng (target d) patterns = .error p := by
  intro docs
  induction docs with
  | nil => intro filtered; simp [filterLoop]
  | cons doc docs ih =>
    intro filtered
    rcases hs : scanPatterns eng (target doc) patterns with p | b
    · refine iff_of_true ?_ ⟨doc, List.mem_cons_self _ _, p, hs⟩
      simp [filterLoop, hs]
    · rcases b with _ | _
      · simp only [filterLoop, hs, ih]
        constructor
        · rintro ⟨d, hd, hp⟩
          exact ⟨d, List.mem_cons_of_mem _ hd, hp⟩
        · rintro ⟨d, hd, p, hp⟩
          rcases List.mem_cons.mp hd with h | h
          · subst h; rw [hs] at hp; cases hp
          · exact ⟨d, h, p, hp⟩
      · simp only [filterLoop, hs, ih]
        constructor
        · rintro ⟨d, hd, hp⟩
          exact ⟨d, List.mem_cons_of_mem _ hd, hp⟩
        · rintro ⟨d, hd, p, hp⟩
          rcases List.mem_cons.mp hd with h | h
          · subst h; rw [hs] at hp; cases hp
          · exact ⟨d, h, p, hp⟩

/-- When the document loop errors, the returned list is nil. -/
theorem filterLoop_error_nil (eng : RegexEngine) (patterns : List String)
    (target : Document → String) :
    ∀ (docs : List Document) (filtered : List Document),
      (filterLoop eng patterns target filtered docs).2.isSome = true →
        (filterLoop eng patterns target filtered docs).1 = none := by
  intro docs
  induction docs with
  | nil => intro filtered h; simp [filterLoop] at h
  | cons doc docs ih =>
    intro filtered h
    rcases hs : scanPatterns eng (target doc) patterns with p | b
    · simp [filterLoop, hs]
    · rcases b with _ | _
      · rw [filterLoop, hs] at h ⊢
        exact ih filtered h
      · rw [filterLoop, hs] at h ⊢
        exact ih (filtered ++ [doc]) h

/-- The error of the document loop names a pattern some document scan
reached. -/
theorem filterLoop_error_names (eng : RegexEngine) (patterns : List String)
    (target : Document → String) :
    ∀ (docs : List Document) (filtered : List Document) (p : String),
      (filterLoop eng patterns target filtered docs).2 =
          some (.invalidPattern p) →
        ∃ d ∈ docs, scanPatterns eng (target d) patterns = .error p := by
  intro docs
  induction docs with
  | nil => intro filtered p h; simp [filterLoop] at h
  | cons doc docs ih =>
    intro filtered p h
    rcases hs : scanPatterns eng (target doc) patterns with q | b
    · rw [filterLoop, hs] at h
      simp at h
      exact ⟨doc, List.mem_cons_self _ _, h ▸ hs⟩
    · rcases b with _ | _
      · rw [filterLoop, hs] at h
        rcases ih filtered p h with ⟨d, hd, hp⟩
        exact ⟨d, List.mem_cons_of_mem _ hd, hp⟩
      · rw [filterLoop, hs] at h
        rcases ih (filtered ++ [doc]) p h with ⟨d, hd, hp⟩
        exact ⟨d, List.mem_cons_of_mem _ hd, hp⟩

/-- C1 (counterexample): with the pattern list ["a", "("] — whose
second pattern does not compile — and a single document titled "a",
FilterDocuments returns the filtered list and no error: the invalid
pattern is never compiled because the document already matched "a", so
the claimed error return does not happen. -/
theorem C1_counterexample :
    cEngine.compile "(" = none ∧
    FilterDocuments cEngine cFilters [cDocA] .title = (some [cDocA], none) :=
  ⟨rfl, rfl⟩

/-- C1 (amended): FilterDocuments compiles patterns lazily, per
document, stopping a document scan at its first match; it returns an
error — naming a pattern that indeed does not compile — and a nil list
exactly when some document scan reaches a non-compiling pattern; when
no scan reaches one (for example, the document list is empty or every
document matches an earlier pattern) the filtered list is returned
with no error even though an invalid pattern is configured. -/
theorem C1_amended_filterDocuments (eng : RegexEngine) (cfg : FiltersConfig)
    (docs : List Document) (ft : FilterType) (patterns : List String)
    (hft : (ft = .title ∧ patterns = cfg.titlePattern) ∨
           (ft = .content ∧ patterns = cfg.contentPattern)) :
    (∀ p, (FilterDocuments eng cfg docs ft).2 = some (.invalidPattern p) →
        eng.compile p = none) ∧
    ((FilterDocuments eng cfg docs ft).2.isSome = true ↔
      ∃ d ∈ docs, ∃ p, scanPatterns eng (filterTarget ft d) patterns = .error p) ∧
    ((FilterDocuments eng cfg docs ft).2.isSome = true →
      (FilterDocuments eng cfg docs ft).1 = none) := by
  rcases hft with ⟨hf, hp⟩ | ⟨hf, hp⟩ <;> subst hf <;> subst hp
  · refine ⟨?_, ?_, ?_⟩
    · intro p h
      rcases filterLoop_error_names eng cfg.titlePattern (filterTarget .title)
        docs [] p h with ⟨d, _, hs⟩
      exact scanPatterns_error_compile hs
    · exact filterLoop_isSome_iff eng cfg.titlePattern (filterTarget .title) docs []
    · exact filterLoop_error_nil eng cfg.titlePattern (filterTarget .title) docs []
  · refine ⟨?_, ?_, ?_⟩
    · intro p h
      rcases filterLoop_error_names eng cfg.contentPattern (filterTarget .content)
        docs [] p h with ⟨d, _, hs⟩
      exact scanPatterns_error_compile hs
    · exact filterLoop_isSome_iff eng cfg.contentPattern (filterTarget .content) docs []
    · exact filterLoop_error_nil eng cfg.contentPattern (filterTarget .content) docs []

/-- C1 (witness): a document titled "b" fails the pattern "a" and
reaches "(", so the filter errors, returns no list, and the named
pattern does not compile. -/
theorem C1_amended_witness :
    (FilterDocuments cEngine cFilters [cDocB] .title).1 = none ∧
    cEngine.compile "(" = none := by
  refine ⟨(C1_amended_filterDocuments cEngine cFilters [cDocB] .title
    ["a", "("] (Or.inl ⟨rfl, rfl⟩)).2.2 rfl,
    (C1_amended_filterDocuments cEngine cFilters [cDocB] .title
    ["a", "("] (Or.inl ⟨rfl, rfl⟩)).1 "(" rfl⟩

/-! ### C2 and C9: the retry wrapper -/

/-- C9: on the ordinary transport-failure shape of http.Client.Do — a
nil response together with the error — doRequestWithRetry dereferences
resp.Body with resp nil and panics on the very first attempt, before
any backoff sleep: the drain-and-close is not well-defined there, so
the claimed totality of the failure branch fails; the code contradicts
its own comment, which says the body is drained only "if we got a
response". -/
theorem C9_nil_response_panics :
    doRequestWithRetry (fun _ => .failure none connRefused) =
      .panicked 1 [] := rfl

/-- C2: the retry discipline the claim describes is present in the code
only for transport failures that carry a non-nil response (the
redirect-check failure shape): there it retries 3 times, sleeps 100ms
then 200ms, and wraps the last error in a message stating "after 3
attempts"; a completed response is returned immediately whatever its
status (so a non-2xx status is never retried, it is turned into an
error by the caller); but on the ordinary transport failure — nil
response with the error — the wrapper panics on attempt 1 with a
nil-pointer dereference instead of sleeping and retrying. -/
theorem C2_retry_behaviour :
    doRequestWithRetry (fun _ => .failure (some respRedirect) tooManyRedirects) =
      .err ("failed to connect after 3 attempts: " ++ tooManyRedirects)
        [100, 200] ∧
    (∃ pre post : String,
      "failed to connect after 3 attempts: " ++ tooManyRedirects =
        pre ++ "after 3 attempts" ++ post) ∧
    doRequestWithRetry (fun _ => .success resp500) = .ok resp500 [] ∧
    doRequestWithRetry (fun _ => .failure none "read tcp: i/o timeout") =
      .panicked 1 [] :=
  ⟨rfl, ⟨"failed to connect ", ": " ++ tooManyRedirects, rfl⟩, rfl, rfl⟩

/-! ### C5, C6, C7: title generation -/

/-- C6: title generation on the empty content returns the fixed
sentinel response — summary "Empty document content", single caption
("EMPTY_CONTENT", 0.0) — with no error and zero chat requests issued,
for every configuration and every behaviour of the HTTP and JSON
layers. -/
theorem C6_empty_content_sentinel (cfg : TitleGenConfig)
    (send : GoBytes → Except GoErr String)
    (parse : String → Option CaptionResponse) :
    GenerateTitleFromContent cfg send parse [] =
      (.ok { summarize := "Empty document content"
             captions := [{ caption := "EMPTY_CONTENT", score := 0 }] }, 0) := rfl

/-- C5: on a successful HTTP exchange for non-empty content, a
response that fails to parse yields — with no error — exactly one
synthetic caption carrying the raw response text with score 0.0 under
the summary "Failed to parse LLM response"; a response that parses to
an empty captions array likewise yields one synthetic caption carrying
the raw response text with score 0.0. -/
theorem C5_parse_failure_degrades (cfg : TitleGenConfig)
    (send : GoBytes → Except GoErr String)
    (parse : String → Option CaptionResponse)
    (content : GoBytes) (response : String)
    (hne : content ≠ [])
    (hsend : send (buildTitlePrompt cfg content) = .ok response) :
    (parse response = none →
      GenerateTitleFromContent cfg send parse content =
        (.ok { summarize := "Failed to parse LLM response"
               captions := [{ caption := response, score := 0 }] }, 1)) ∧
    (∀ pr, parse response = some pr → pr.captions = [] →
      GenerateTitleFromContent cfg send parse content =
        (.ok { summarize := pr.summarize
               captions := [{ caption := response, score := 0 }] }, 1)) := by
  constructor
  · intro hp
    simp [GenerateTitleFromContent, hne, hsend, hp]
  · intro pr hp hemp
    simp [GenerateTitleFromContent, hne, hsend, hp, hemp]

/-- C5 (witness): a concrete run with the fixed response "not json":
under a failing parse the result is the one-caption synthetic response;
under a parse yielding zero captions the raw text is kept as the one
caption under the parsed summary. -/
theorem C5_witness :
    GenerateTitleFromContent cfgT sendRaw parseNone contentABC =
      (.ok { summarize := "Failed to parse LLM response"
             captions := [{ caption := "not json", score := 0 }] }, 1) ∧
    GenerateTitleFromContent cfgT sendRaw parseEmpty contentABC =
      (.ok { summarize := "sum"
             captions := [{ caption := "not json", score := 0 }] }, 1) :=
  ⟨(C5_parse_failure_degrades cfgT sendRaw parseNone contentABC "not json"
      (by decide) rfl).1 rfl,
   (C5_parse_failure_degrades cfgT sendRaw parseEmpty contentABC "not json"
      (by decide) rfl).2 _ rfl rfl⟩

/-- C7 (counterexample): Go slices by byte index, not by character:
with limit 1 and the content being the UTF-8 bytes of a two-character
string starting with U+00E9 (0xC3 0xA9), the code keeps the single
byte 0xC3 — not the first character 0xC3 0xA9 — so "the first m
characters" is not what the prompt is built from. -/
theorem C7_counterexample :
    truncateContent cfg1 eacuteA = [0xC3] ∧
    specTakeChars 1 eacuteA = [0xC3, 0xA9] ∧
    truncateContent cfg1 eacuteA ≠ specTakeChars 1 eacuteA := by
  refine ⟨by decide, by decide, by decide⟩

/-- On ASCII-only content the byte cut and the character cut agree. -/
theorem specTakeChars_ascii :
    ∀ (m : Nat) (content : GoBytes), (∀ b ∈ content, b < 0x80) →
      specTakeChars m content = content.take m := by
  intro m
  induction m with
  | zero => intro content _; simp [specTakeChars]
  | succ m ih =>
    intro content h
    cases content with
    | nil => simp [specTakeChars]
    | cons b rest =>
      have hb : b < 0x80 := h b (List.mem_cons_self _ _)
      simp only [specTakeChars, if_pos hb, List.take, List.drop]
      simp only [List.take_succ_cons, List.take_zero, List.drop_succ_cons,
        List.drop_zero, List.singleton_append, List.cons.injEq, true_and]
      exact ih rest (fun x hx => h x (List.mem_cons_of_mem _ hx))

/-- C7 (amended): when the configured maximum m is positive and the
content is longer than m bytes, the prompt is built from exactly the
first m bytes of the content (a hard cut at the byte boundary, which
can split a multi-byte character; it equals the first m characters
exactly on ASCII content); when m is zero or negative the content is
used in full. -/
theorem C7_amended_truncation (cfg : TitleGenConfig) (content : GoBytes) :
    (0 < cfg.truncateCharactersOfContent →
      cfg.truncateCharactersOfContent < (content.length : Int) →
      truncateContent cfg content = content.take cfg.truncateCharactersOfContent.toNat) ∧
    (cfg.truncateCharactersOfContent ≤ 0 → truncateContent cfg content = content) ∧
    ((∀ b ∈ content, b < 0x80) → ∀ m : Nat, specTakeChars m content = content.take m) ∧
    buildTitlePrompt cfg content =
      replaceAllGo cfg.modelsTitleGeneration.length cfg.modelsTitleGeneration
        contentMarker (truncateContent cfg content) := by
  refine ⟨?_, ?_, ?_, rfl⟩
  · intro h1 h2
    simp [truncateContent, h1, h2]
  · intro h
    have hne : ¬(0 < cfg.truncateCharactersOfContent ∧
        cfg.truncateCharactersOfContent < (content.length : Int)) :=
      fun hc => absurd hc.1 (not_lt.mpr h)
    simp [truncateContent, hne]
  · intro h m
    exact specTakeChars_ascii m content h

/-- C7 (witness): with limit 2 over the 3-byte ASCII content "abc" the
prompt content is its first 2 bytes, and with limit 0 the content
stays whole. -/
theorem C7_amended_witness :
    truncateContent cfgT contentABC = [0x61, 0x62] ∧
    truncateContent cfg0 contentABC = contentABC := by
  constructor
  · have h := (C7_amended_truncation cfgT contentABC).1 (by decide) (by decide)
    rw [h]; decide
  · exact (C7_amended_truncation cfg0 contentABC).2.1 (by decide)

/-! ### C10: a nil-error title generation always carries a caption -/

/-- The commit tail always reports updateFailed or updated. -/
theorem commitTitle_branch (ctx : TitleDocCtx) (stats : ProgressStats)
    (t : String) (ps : List Patch) :
    (commitTitle ctx stats t ps).2.2 = .updateFailed ∨
      (commitTitle ctx stats t ps).2.2 = .updated := by
  rcases h : SetTitleOfPaperlessDocument ctx.doc.id t ctx.update with ⟨res, ps2⟩
  cases res <;> simp [commitTitle, h]

/-- A title-pipeline iteration whose generation succeeded with a
non-empty captions list never reports the noCaptions branch. -/
theorem processTitleDoc_not_noCaptions (autonomous : Bool)
    (cb : Option (Document → CaptionResponse → (String × Bool) × List Patch))
    (doc : Document) (upd : Except GoErr Unit) (stats : ProgressStats)
    (r : CaptionResponse) (hr : r.captions.length ≠ 0) :
    (processTitleDoc autonomous cb { doc := doc, gen := .ok r, update := upd }
      stats).2.2 ≠ .noCaptions := by
  have hbase := commitTitle_branch { doc := doc, gen := .ok r, update := upd }
  rcases cb with _ | f
  · rcases hbase stats
        ((({ r with captions := goSortCaptions r.captions } :
            CaptionResponse).captions.headD dC).caption ++
          if autonomous then " (auto-generated)" else "") [] with h | h <;>
      cases autonomous <;>
      simp_all [processTitleDoc]
  · cases autonomous
    · rcases hf : f doc { r with captions := goSortCaptions r.captions }
        with ⟨⟨t, conf⟩, ps⟩
      cases conf
      · simp [processTitleDoc, hr, hf]
      · rcases hbase stats t ps with h | h <;> simp_all [processTitleDoc]
    · rcases hbase stats
          ((({ r with captions := goSortCaptions r.captions } :
              CaptionResponse).captions.headD dC).caption ++
            " (auto-generated)") [] with h | h <;>
        simp_all [processTitleDoc]

/-- An OCR-pipeline iteration whose generation succeeded with a
non-empty captions list never reports the noCaptions branch. -/
theorem processOcrDoc_not_noCaptions
    (cb : Option (Document → String → String → Bool)) (doc : Document)
    (dl rd : Except GoErr Unit) (t : String) (upd : Except GoErr Unit)
    (stats : ProgressStats) (r : CaptionResponse)
    (hr : r.captions.length ≠ 0) :
    (processOcrDoc cb
      { doc := doc, download := dl, render := rd, ocr := .ok t,
        gen := .ok r, update := upd } stats).2.2 ≠ .noCaptions := by
  rcases dl with e | _
  · simp [processOcrDoc, ocrErrStep]
  · rcases rd with e | _
    · simp [processOcrDoc, ocrErrStep]
    · rcases cb with _ | f
      · rcases upd with e | _ <;> simp [processOcrDoc, ocrErrStep, hr]
      · rcases hc : f doc t (((goSortCaptions r.captions).head?.getD dC)).caption
          with _ | _
        · simp [processOcrDoc, ocrErrStep, hr, List.headD_eq_head?, hc]
        · rcases upd with e | _ <;>
            simp [processOcrDoc, ocrErrStep, hr, List.headD_eq_head?, hc]

/-- C10: whenever GenerateTitleFromContent returns without error, its
captions list is non-empty — every path (empty-content sentinel, parse
failure, empty parsed array, parsed result) yields at least one
caption — and consequently the zero-captions error branch of the title
and OCR pipeline loops cannot fire on a generation result. -/
theorem C10_ok_implies_captions (cfg : TitleGenConfig)
    (send : GoBytes → Except GoErr String)
    (parse : String → Option CaptionResponse) (content : GoBytes) :
    (∀ r, (GenerateTitleFromContent cfg send parse content).1 = .ok r →
      r.captions ≠ []) ∧
    (∀ (autonomous : Bool)
        (cb : Option (Document → CaptionResponse → (String × Bool) × List Patch))
        (doc : Document) (upd : Except GoErr Unit) (stats : ProgressStats),
      (processTitleDoc autonomous cb
        { doc := doc, gen := (GenerateTitleFromContent cfg send parse content).1,
          update := upd } stats).2.2 ≠ .noCaptions) ∧
    (∀ (cb : Option (Document → String → String → Bool)) (doc : Document)
        (dl rd : Except GoErr Unit) (t : String) (upd : Except GoErr Unit)
        (stats : ProgressStats),
      (processOcrDoc cb
        { doc := doc, download := dl, render := rd, ocr := .ok t,
          gen := (GenerateTitleFromContent cfg send parse content).1,
          update := upd } stats).2.2 ≠ .noCaptions) := by
  have main : ∀ r, (GenerateTitleFromContent cfg send parse content).1 = .ok r →
      r.captions ≠ [] := by
    intro r h
    by_cases hc : content = []
    · subst hc
      simp [GenerateTitleFromContent] at h
      rw [← h]
      simp
    · rcases hsend : send (buildTitlePrompt cfg content) with e | response
      · simp [GenerateTitleFromContent, hc, hsend] at h
      · rcases hp : parse response with _ | pr
        · simp [GenerateTitleFromContent, hc, hsend, hp] at h
          rw [← h]
          simp
        · by_cases hemp : pr.captions.length = 0
          · simp [GenerateTitleFromContent, hc, hsend, hp, hemp] at h
            rw [← h]
            simp
          · simp [GenerateTitleFromContent, hc, hsend, hp, hemp] at h
            rw [← h]
            exact List.ne_nil_of_length_pos (Nat.pos_of_ne_zero hemp)
  refine ⟨main, ?_, ?_⟩
  · intro autonomous cb doc upd stats
    rcases hg : (GenerateTitleFromContent cfg send parse content).1 with e | r
    · simp [processTitleDoc, hg]
    · have hr : r.captions.length ≠ 0 :=
        fun h0 => main r hg (List.eq_nil_of_length_eq_zero h0)
      exact processTitleDoc_not_noCaptions autonomous cb doc upd stats r hr
  · intro cb doc dl rd t upd stats
    rcases hg : (GenerateTitleFromContent cfg send parse content).1 with e | r
    · rcases dl with e1 | _
      · simp [processOcrDoc, ocrErrStep]
      · rcases rd with e2 | _
        · simp [processOcrDoc, ocrErrStep]
        · simp [processOcrDoc, ocrErrStep, hg]
    · have hr : r.captions.length ≠ 0 :=
        fun h0 => main r hg (List.eq_nil_of_length_eq_zero h0)
      exact processOcrDoc_not_noCaptions cb doc dl rd t upd stats r hr

/-- C10 (witness): the concrete unparsable-response run yields a
caption list that is non-empty, and a pipeline iteration over that
generation result does not take the noCaptions branch. -/
theorem C10_witness :
    ({ summarize := "Failed to parse LLM response"
       captions := [{ caption := "not json", score := 0 }] } :
        CaptionResponse).captions ≠ [] ∧
    (processTitleDoc false none
      { doc := docW, gen := (GenerateTitleFromContent cfgT sendRaw parseNone
          contentABC).1, update := .ok () } (initStats 1)).2.2 ≠ .noCaptions :=
  ⟨(C10_ok_implies_captions cfgT sendRaw parseNone contentABC).1 _ rfl,
   (C10_ok_implies_captions cfgT sendRaw parseNone contentABC).2.1 false none
     docW (.ok ()) (initStats 1)⟩

/-! ### C3: statistics invariants of the two pipeline loops -/

/-- The commit tail processes exactly one document. -/
theorem commitTitle_stats (ctx : TitleDocCtx) (stats : ProgressStats)
    (t : String) (ps : List Patch) :
    statsStepN 1 stats (commitTitle ctx stats t ps).1 := by
  rcases h : SetTitleOfPaperlessDocument ctx.doc.id t ctx.update with ⟨res, ps2⟩
  cases res <;> simp [commitTitle, h, statsStepN, statsLE] <;> omega

/-- One title-pipeline iteration processes exactly one document. -/
theorem processTitleDoc_stats (autonomous : Bool)
    (cb : Option (Document → CaptionResponse → (String × Bool) × List Patch))
    (ctx : TitleDocCtx) (stats : ProgressStats) :
    statsStepN 1 stats (processTitleDoc autonomous cb ctx stats).1 := by
  rcases hg : ctx.gen with e | r
  · simp [processTitleDoc, hg, statsStepN, statsLE]
    omega
  · by_cases h0 : r.captions.length = 0
    · simp [processTitleDoc, hg, h0, statsStepN, statsLE]
      omega
    · rcases cb with _ | f
      · cases autonomous <;>
          · simp only [processTitleDoc, hg, if_neg h0]
            apply commitTitle_stats
      · cases autonomous
        · rcases hf : f ctx.doc { r with captions := goSortCaptions r.captions }
            with ⟨⟨t, conf⟩, ps⟩
          cases conf
          · simp [processTitleDoc, hg, h0, hf, statsStepN, statsLE]
            omega
          · simp only [processTitleDoc, hg, if_neg h0, hf]
            apply commitTitle_stats
        · simp only [processTitleDoc, hg, if_neg h0]
          apply commitTitle_stats

/-- The title-pipeline loop over n documents processes exactly n. -/
theorem titlePipelineFrom_stats (autonomous : Bool)
    (cb : Option (Document → CaptionResponse → (String × Bool) × List Patch)) :
    ∀ (ctxs : List TitleDocCtx) (stats : ProgressStats),
      statsStepN ctxs.length stats
        (titlePipelineFrom autonomous cb stats ctxs).1 := by
  intro ctxs
  induction ctxs with
  | nil => intro stats; simp [titlePipelineFrom, statsStepN, statsLE]
  | cons ctx rest ih =>
    intro stats
    have h1 := processTitleDoc_stats autonomous cb ctx stats
    rcases hstep : processTitleDoc autonomous cb ctx stats with ⟨s1, ps, br⟩
    rw [hstep] at h1
    have h2 := ih s1
    rcases hfold : titlePipelineFrom autonomous cb s1 rest with ⟨sN, ps2⟩
    rw [hfold] at h2
    simp only [titlePipelineFrom, hstep, hfold, List.length_cons]
    simp only at h1 h2
    unfold statsStepN statsLE at h1 h2 ⊢
    omega

/-- Splitting the title-pipeline loop at a prefix. -/
theorem titlePipelineFrom_append (autonomous : Bool)
    (cb : Option (Document → CaptionResponse → (String × Bool) × List Patch)) :
    ∀ (xs ys : List TitleDocCtx) (stats : ProgressStats),
      (titlePipelineFrom autonomous cb stats (xs ++ ys)).1 =
        (titlePipelineFrom autonomous cb
          (titlePipelineFrom autonomous cb stats xs).1 ys).1 := by
  intro xs
  induction xs with
  | nil => intro ys stats; simp [titlePipelineFrom]
  | cons x rest ih =>
    intro ys stats
    rcases hstep : processTitleDoc autonomous cb x stats with ⟨s1, ps, br⟩
    have h := ih ys s1
    rcases hl : titlePipelineFrom autonomous cb s1 (rest ++ ys) with ⟨sL, psL⟩
    rcases hr1 : titlePipelineFrom autonomous cb s1 rest with ⟨sR, psR⟩
    rw [hl, hr1] at h
    simp only at h
    rcases h2 : titlePipelineFrom autonomous cb sR ys with ⟨sY, psY⟩
    rw [h2] at h
    simp only at h
    simp only [List.cons_append, titlePipelineFrom, List.append_eq, hstep, hl,
      hr1, h2]
    exact h

/-- The shared error step of the OCR loop processes one document. -/
theorem ocrErrStep_stats (stats : ProgressStats) (br : OcrBranch) :
    statsStepN 1 stats (ocrErrStep stats br).1 := by
  simp [ocrErrStep, statsStepN, statsLE]
  omega

/-- One OCR-pipeline iteration processes exactly one document. -/
theorem processOcrDoc_stats (cb : Option (Document → String → String → Bool))
    (ctx : OcrDocCtx) (stats : ProgressStats) :
    statsStepN 1 stats (processOcrDoc cb ctx stats).1 := by
  rcases hd : ctx.download with e | u
  · simp only [processOcrDoc, hd]; apply ocrErrStep_stats
  · rcases hrd : ctx.render with e | u2
    · simp only [processOcrDoc, hd, hrd]; apply ocrErrStep_stats
    · rcases ho : ctx.ocr with e | newContent
      · simp only [processOcrDoc, hd, hrd, ho]; apply ocrErrStep_stats
      · rcases hg : ctx.gen with e | r
        · simp only [processOcrDoc, hd, hrd, ho, hg]; apply ocrErrStep_stats
        · by_cases h0 : r.captions.length = 0
          · simp only [processOcrDoc, hd, hrd, ho, hg, if_pos h0]
            apply ocrErrStep_stats
          · rcases cb with _ | f
            · rcases hu : ctx.update with e | u3 <;>
                simp [processOcrDoc, hd, hrd, ho, hg, h0, hu, statsStepN,
                  statsLE] <;> omega
            · rcases hc : f ctx.doc newContent
                  (((goSortCaptions r.captions).head?.getD dC)).caption
                with _ | _
              · simp [processOcrDoc, hd, hrd, ho, hg, h0, List.headD_eq_head?,
                  hc, statsStepN, statsLE]
                omega
              · rcases hu : ctx.update with e | u3 <;>
                  simp [processOcrDoc, hd, hrd, ho, hg, h0, List.headD_eq_head?,
                    hc, hu, statsStepN, statsLE] <;> omega

/-- The OCR-pipeline loop over n documents processes exactly n. -/
theorem ocrPipelineFrom_stats (cb : Option (Document → String → String → Bool)) :
    ∀ (ctxs : List OcrDocCtx) (stats : ProgressStats),
      statsStepN ctxs.length stats (ocrPipelineFrom cb stats ctxs).1 := by
  intro ctxs
  induction ctxs with
  | nil => intro stats; simp [ocrPipelineFrom, statsStepN, statsLE]
  | cons ctx rest ih =>
    intro stats
    have h1 := processOcrDoc_stats cb ctx stats
    rcases hstep : processOcrDoc cb ctx stats with ⟨s1, ps, br⟩
    rw [hstep] at h1
    have h2 := ih s1
    rcases hfold : ocrPipelineFrom cb s1 rest with ⟨sN, ps2⟩
    rw [hfold] at h2
    simp only [ocrPipelineFrom, hstep, hfold, List.length_cons]
    simp only at h1 h2
    unfold statsStepN statsLE at h1 h2 ⊢
    omega

/-- Splitting the OCR-pipeline loop at a prefix. -/
theorem ocrPipelineFrom_append (cb : Option (Document → String → String → Bool)) :
    ∀ (xs ys : List OcrDocCtx) (stats : ProgressStats),
      (ocrPipelineFrom cb stats (xs ++ ys)).1 =
        (ocrPipelineFrom cb (ocrPipelineFrom cb stats xs).1 ys).1 := by
  intro xs
  induction xs with
  | nil => intro ys stats; simp [ocrPipelineFrom]
  | cons x rest ih =>
    intro ys stats
    rcases hstep : processOcrDoc cb x stats with ⟨s1, ps, br⟩
    have h := ih ys s1
    rcases hl : ocrPipelineFrom cb s1 (rest ++ ys) with ⟨sL, psL⟩
    rcases hr1 : ocrPipelineFrom cb s1 rest with ⟨sR, psR⟩
    rw [hl, hr1] at h
    simp only at h
    rcases h2 : ocrPipelineFrom cb sR ys with ⟨sY, psY⟩
    rw [h2] at h
    simp only at h
    simp only [List.cons_append, ocrPipelineFrom, List.append_eq, hstep, hl,
      hr1, h2]
    exact h

/-- C3: in both pipeline runs the counters never decrease from one
document to the next, each document raises processed by exactly one no
matter what its interactive step does (in particular for any number of
redo-OCR iterations of the goto loop), and at the end of the run
processed = total = success + errors + skipped. -/
theorem C3_stats_invariants (autonomous : Bool)
    (cb : Option (Document → CaptionResponse → (String × Bool) × List Patch))
    (ctxs : List TitleDocCtx)
    (ocb : Option (Document → String → String → Bool))
    (octxs : List OcrDocCtx) :
    ((processDocumentsForTitleGeneration autonomous cb ctxs).1.total = ctxs.length ∧
     (processDocumentsForTitleGeneration autonomous cb ctxs).1.processed = ctxs.length ∧
     (processDocumentsForTitleGeneration autonomous cb ctxs).1.success +
       (processDocumentsForTitleGeneration autonomous cb ctxs).1.errors +
       (processDocumentsForTitleGeneration autonomous cb ctxs).1.skipped =
       ctxs.length) ∧
    (∀ n, statsLE
      (titlePipelineFrom autonomous cb (initStats ctxs.length) (ctxs.take n)).1
      (titlePipelineFrom autonomous cb (initStats ctxs.length)
        (ctxs.take (n + 1))).1) ∧
    (∀ n, (titlePipelineFrom autonomous cb (initStats ctxs.length)
        (ctxs.take n)).1.processed = min n ctxs.length) ∧
    ((processOCRGeneration ocb octxs).1.total = octxs.length ∧
     (processOCRGeneration ocb octxs).1.processed = octxs.length ∧
     (processOCRGeneration ocb octxs).1.success +
       (processOCRGeneration ocb octxs).1.errors +
       (processOCRGeneration ocb octxs).1.skipped = octxs.length) ∧
    (∀ n, statsLE
      (ocrPipelineFrom ocb (initStats octxs.length) (octxs.take n)).1
      (ocrPipelineFrom ocb (initStats octxs.length) (octxs.take (n + 1))).1) ∧
    (∀ n, (ocrPipelineFrom ocb (initStats octxs.length)
        (octxs.take n)).1.processed = min n octxs.length) ∧
    (∀ scripts : Document → List (TitleRound × RedoCtx),
      (processDocumentsForTitleGeneration false
        (some (fun d r => titleSelectionCallback d r (scripts d))) ctxs).1.processed
        = ctxs.length) := by
  have hT := titlePipelineFrom_stats autonomous cb ctxs (initStats ctxs.length)
  have hO := ocrPipelineFrom_stats ocb octxs (initStats octxs.length)
  have e1 : (initStats ctxs.length).total = ctxs.length := rfl
  have e2 : (initStats ctxs.length).processed = 0 := rfl
  have e3 : (initStats ctxs.length).success = 0 := rfl
  have e4 : (initStats ctxs.length).errors = 0 := rfl
  have e5 : (initStats ctxs.length).skipped = 0 := rfl
  have f1 : (initStats octxs.length).total = octxs.length := rfl
  have f2 : (initStats octxs.length).processed = 0 := rfl
  have f3 : (initStats octxs.length).success = 0 := rfl
  have f4 : (initStats octxs.length).errors = 0 := rfl
  have f5 : (initStats octxs.length).skipped = 0 := rfl
  refine ⟨?_, ?_, ?_, ?_, ?_, ?_, ?_⟩
  · unfold statsStepN statsLE at hT
    unfold processDocumentsForTitleGeneration
    omega
  · intro n
    have happ := titlePipelineFrom_append autonomous cb (ctxs.take n)
      (ctxs[n]?.toList) (initStats ctxs.length)
    rw [← List.take_succ] at happ
    rw [happ]
    exact (titlePipelineFrom_stats autonomous cb (ctxs[n]?.toList)
      (titlePipelineFrom autonomous cb (initStats ctxs.length) (ctxs.take n)).1).2.2.2
  · intro n
    have h := titlePipelineFrom_stats autonomous cb (ctxs.take n) (initStats ctxs.length)
    unfold statsStepN at h
    rw [h.2.1, e2, List.length_take]
    omega
  · unfold statsStepN statsLE at hO
    unfold processOCRGeneration
    omega
  · intro n
    have happ := ocrPipelineFrom_append ocb (octxs.take n)
      (octxs[n]?.toList) (initStats octxs.length)
    rw [← List.take_succ] at happ
    rw [happ]
    exact (ocrPipelineFrom_stats ocb (octxs[n]?.toList)
      (ocrPipelineFrom ocb (initStats octxs.length) (octxs.take n)).1).2.2.2
  · intro n
    have h := ocrPipelineFrom_stats ocb (octxs.take n) (initStats octxs.length)
    unfold statsStepN at h
    rw [h.2.1, f2, List.length_take]
    omega
  · intro scripts
    have h := titlePipelineFrom_stats false
      (some (fun d r => titleSelectionCallback d r (scripts d))) ctxs
      (initStats ctxs.length)
    unfold statsStepN at h
    unfold processDocumentsForTitleGeneration
    rw [h.2.1, e2]
    omega

/-! ### C8: blank custom titles are never committed -/

/-- C8: when the operator picks custom-title entry and the input trims
to the empty string, the selection step reports (CustomEntry, "") with
no error; the Execute callback then hands (_, false) to the pipeline,
which books the document as skipped and issues no PATCH at all; and the
title-commit operation itself rejects the empty title with an error
before any PATCH is sent. -/
theorem C8_blank_custom_title_skips (resp : CaptionResponse) (t : String)
    (round : TitleRound) (redo : RedoCtx) (rest : List (TitleRound × RedoCtx))
    (doc : Document) (caps : CaptionResponse) (upd : Except GoErr Unit)
    (stats : ProgressStats)
    (hsel : round.sel = .ok customTitleOption)
    (htext : round.textInput = .ok t)
    (hblank : goTrimSpace t = "")
    (hcaps : caps.captions.length ≠ 0) :
    askUserForTitleSelection resp round = .ok (customTitleOption, "") ∧
    titleSelectionCallback doc resp ((round, redo) :: rest) = (("", false), []) ∧
    processTitleDoc false
      (some (fun d r => titleSelectionCallback d r ((round, redo) :: rest)))
      { doc := doc, gen := .ok caps, update := upd } stats =
      ({ stats with skipped := stats.skipped + 1,
                    processed := stats.processed + 1 }, [], .skipped) ∧
    (∀ (docId : Int) (upd2 : Except GoErr Unit), 0 < docId →
      SetTitleOfPaperlessDocument docId "" upd2 =
        (.error "title cannot be empty", [])) := by
  have ha : ∀ r : CaptionResponse,
      askUserForTitleSelection r round = .ok (customTitleOption, "") := by
    intro r
    simp [askUserForTitleSelection, hsel, htext, hblank, customTitleOption,
      skipDocumentOption, makeOcrAndTryAgainOption, Undefined]
  have hb : ∀ r : CaptionResponse,
      titleSelectionCallback doc r ((round, redo) :: rest) = (("", false), []) := by
    intro r
    simp [titleSelectionCallback, ha r, customTitleOption, skipDocumentOption,
      makeOcrAndTryAgainOption]
  refine ⟨ha resp, hb resp, ?_, ?_⟩
  · simp [processTitleDoc, hcaps, hb]
  · intro docId upd2 hpos
    simp [SetTitleOfPaperlessDocument, not_le.mpr hpos]

/-- C8 (witness): the concrete blank input " " after choosing custom
entry: selection reports (CustomEntry, ""), the pipeline iteration
books one skipped document with no PATCH, and committing an empty
title to document 7 errors. -/
theorem C8_witness :
    askUserForTitleSelection respW roundCustomBlank = .ok (customTitleOption, "") ∧
    processTitleDoc false
      (some (fun d r => titleSelectionCallback d r [(roundCustomBlank, redoUnused)]))
      ctxW (initStats 1) =
      ({ total := 1, processed := 1, success := 0, errors := 0, skipped := 1 },
        [], .skipped) ∧
    SetTitleOfPaperlessDocument 7 "" (.ok ()) =
      (.error "title cannot be empty", []) := by
  have h := C8_blank_custom_title_skips respW " " roundCustomBlank redoUnused []
    docW respW (.ok ()) (initStats 1) rfl rfl (by decide) (by decide)
  exact ⟨h.1, h.2.2.1, h.2.2.2 7 (.ok ()) (by decide)⟩

/-! ### C4: order of the presented options -/

/-- Reading just past a prefix lands in the suffix. -/
theorem getD_append_add (p rest : List Caption) (n : Nat) :
    (p ++ rest).getD (p.length + n) dC = rest.getD n dC := by
  induction p with
  | nil => simp
  | cons a p ih =>
    simpa [List.length_cons, Nat.succ_add, List.getD_cons_succ] using ih

/-- Swapping two adjacent positions across a prefix. -/
theorem swapAt_adjacent (u : List Caption) (x y : Caption) (v : List Caption) :
    swapAt (u ++ x :: y :: v) (u.length + 1) u.length = u ++ y :: x :: v := by
  induction u with
  | nil => simp [swapAt]
  | cons a u ih =>
    simp only [swapAt, List.cons_append, List.length_cons, List.getD_cons_succ,
      List.set_cons_succ, List.cons.injEq, true_and] at ih ⊢
    exact ih

/-- Membership in a stable insertion. -/
theorem mem_insertLe (z c : Caption) (p : List Caption) :
    z ∈ insertLe c p ↔ z = c ∨ z ∈ p := by
  induction p with
  | nil => simp [insertLe]
  | cons y p ih =>
    by_cases hy : lessC c y
    · simp [insertLe, hy]
    · simp [insertLe, hy, ih]
      tauto

/-- Inserting below a strictly smaller last element. -/
theorem insertLe_append_last (c x : Caption) (p : List Caption)
    (h : lessC c x = true) :
    insertLe c (p ++ [x]) = insertLe c p ++ [x] := by
  induction p with
  | nil => simp [insertLe, h]
  | cons y p ih =>
    by_cases hy : lessC c y
    · simp [insertLe, hy]
    · simp [insertLe, hy, ih]

/-- Inserting an element that overtakes nothing appends it. -/
theorem insertLe_all_not (c : Caption) (p : List Caption)
    (h : ∀ y ∈ p, lessC c y = false) :
    insertLe c p = p ++ [c] := by
  induction p with
  | nil => rfl
  | cons y p ih =>
    have hy := h y (List.mem_cons_self _ _)
    simp [insertLe, hy, ih (fun z hz => h z (List.mem_cons_of_mem _ hz))]

/-- Stable insertion grows the length by one. -/
theorem insertLe_length (c : Caption) (p : List Caption) :
    (insertLe c p).length = p.length + 1 := by
  induction p with
  | nil => rfl
  | cons y p ih =>
    by_cases hy : lessC c y <;> simp [insertLe, hy, ih]

/-- Stable insertion preserves descending sortedness. -/
theorem sortedDesc_insertLe (c : Caption) (p : List Caption)
    (h : sortedDesc p) : sortedDesc (insertLe c p) := by
  induction p with
  | nil =>
    simp only [insertLe, sortedDesc]
    exact List.pairwise_singleton _ _
  | cons y p ih =>
    have h' : (∀ z ∈ p, geScore y z) ∧ List.Pairwise geScore p :=
      List.pairwise_cons.mp h
    by_cases hy : lessC c y
    · have hcy : y.score < c.score := of_decide_eq_true hy
      simp only [insertLe, if_pos hy]
      refine List.Pairwise.cons ?_ h
      intro z hz
      rcases List.mem_cons.mp hz with h1 | h1
      · subst h1; exact le_of_lt hcy
      · exact le_trans (h'.1 z h1) (le_of_lt hcy)
    · have hcy : c.score ≤ y.score :=
        le_of_not_lt (fun hlt => hy (decide_eq_true hlt))
      simp only [insertLe, if_neg hy]
      refine List.Pairwise.cons ?_ (ih h'.2)
      intro z hz
      rcases (mem_insertLe z c p).mp hz with h1 | h1
      · subst h1; exact hcy
      · exact h'.1 z h1

/-- The inner loop of Go insertion sort bubbles the new element into a
sorted prefix exactly as stable insertion does. -/
theorem bubbleGo_insert :
    ∀ (p : List Caption), sortedDesc p → ∀ (c : Caption) (s : List Caption),
      bubbleGo 0 (p ++ c :: s) p.length = insertLe c p ++ s := by
  intro p
  induction p using List.reverseRecOn with
  | nil => intro _ c s; rfl
  | append_singleton p x ih =>
    intro hp c s
    have hp' : List.Pairwise geScore p ∧ ∀ a ∈ p, ∀ b ∈ [x], geScore a b := by
      have := List.pairwise_append.mp hp
      exact ⟨this.1, this.2.2⟩
    have hform : (p ++ [x]) ++ c :: s = p ++ x :: c :: s := by simp
    have hlen : (p ++ [x]).length = p.length + 1 := by simp
    have hget1 : (p ++ x :: c :: s).getD (p.length + 1) dC = c := by
      simpa using getD_append_add p (x :: c :: s) 1
    have hget0 : (p ++ x :: c :: s).getD p.length dC = x := by
      simpa using getD_append_add p (x :: c :: s) 0
    have hless : lessAt (p ++ x :: c :: s) (p.length + 1) p.length = lessC c x := by
      simp only [lessAt, hget1, hget0]
    rw [hform, hlen, bubbleGo]
    by_cases hcx : lessC c x
    · rw [if_pos ⟨Nat.succ_pos _, by rw [hless]; exact hcx⟩]
      rw [swapAt_adjacent p x c s]
      rw [ih hp'.1 c (x :: s), insertLe_append_last c x p hcx]
      simp
    · rw [if_neg (by rintro ⟨-, hl⟩; rw [hless] at hl; exact hcx hl)]
      rw [insertLe_all_not c (p ++ [x])]
      · simp
      · intro y hy
        rcases List.mem_append.mp hy with h1 | h1
        · have hyx : x.score ≤ y.score := hp'.2 y h1 x (List.mem_singleton_self x)
          have hcx' : c.score ≤ x.score :=
            le_of_not_lt (fun hlt => hcx (decide_eq_true hlt))
          exact decide_eq_false (not_lt.mpr (le_trans hcx' hyx))
        · rw [List.mem_singleton.mp h1]
          exact decide_eq_false (fun hlt => hcx (decide_eq_true hlt))

/-- The outer loop of Go insertion sort folds stable insertions over
the remaining elements. -/
theorem isortGo_insertAll :
    ∀ (s p : List Caption), sortedDesc p →
      isortGo 0 (p ++ s) p.length s.length = insertAllFrom p s := by
  intro s
  induction s with
  | nil =>
    intro p hp
    simp [isortGo, insertAllFrom]
  | cons c s ih =>
    intro p hp
    show isortGo 0 (bubbleGo 0 (p ++ c :: s) p.length) (p.length + 1) s.length =
      insertAllFrom p (c :: s)
    rw [bubbleGo_insert p hp c s]
    rw [show p.length + 1 = (insertLe c p).length from (insertLe_length c p).symm]
    exact ih (insertLe c p) (sortedDesc_insertLe c p hp)

/-- Go insertion sort over the whole slice is the stable descending
sort. -/
theorem insertionSort_func_stable (l : List Caption) :
    insertionSort_func l 0 l.length = stableSortGo l := by
  cases l with
  | nil => rfl
  | cons c rest =>
    have h := isortGo_insertAll rest [c] (List.pairwise_singleton _ _)
    simpa [insertionSort_func, stableSortGo, insertAllFrom] using h

/-- On at most 12 captions, sort.Slice is exactly Go insertion sort,
hence the stable descending sort. -/
theorem goSortCaptions_small (l : List Caption) (h : l.length ≤ 12) :
    goSortCaptions l = stableSortGo l := by
  rw [goSortCaptions, pdqsortGo]
  rw [if_pos (by simpa using h)]
  exact insertionSort_func_stable l

/-- Folding stable insertions preserves sortedness. -/
theorem sortedDesc_insertAllFrom :
    ∀ (s p : List Caption), sortedDesc p → sortedDesc (insertAllFrom p s) := by
  intro s
  induction s with
  | nil => exact fun p hp => hp
  | cons c s ih => exact fun p hp => ih (insertLe c p) (sortedDesc_insertLe c p hp)

/-- No element of a given score class: the class filter is empty. -/
theorem scoreClass_nil_of_ne (r : Rat) (q : List Caption)
    (h : ∀ z ∈ q, z.score ≠ r) : scoreClass r q = [] := by
  rw [scoreClass, List.filter_eq_nil_iff]
  intro z hz
  simpa using h z hz

/-- Stable insertion appends the new caption to its own score class
and leaves every other class untouched. -/
theorem scoreClass_insertLe (r : Rat) (c : Caption) (p : List Caption)
    (hp : sortedDesc p) :
    scoreClass r (insertLe c p) =
      scoreClass r p ++ if c.score = r then [c] else [] := by
  induction p with
  | nil =>
    by_cases hc : c.score = r <;> simp [insertLe, scoreClass, hc]
  | cons y p ih =>
    have hp' : (∀ z ∈ p, geScore y z) ∧ List.Pairwise geScore p :=
      List.pairwise_cons.mp hp
    by_cases hy : lessC c y
    · have hcy : y.score < c.score := of_decide_eq_true hy
      rw [insertLe, if_pos hy]
      by_cases hc : c.score = r
      · have hnone : ∀ z ∈ y :: p, z.score ≠ r := by
          intro z hz
          rcases List.mem_cons.mp hz with h1 | h1
          · subst h1; exact ne_of_lt (hc ▸ hcy)
          · exact ne_of_lt (lt_of_le_of_lt (hp'.1 z h1) (hc ▸ hcy))
        rw [scoreClass_nil_of_ne r (y :: p) hnone]
        simp [scoreClass, hc]
        exact List.forall_mem_cons.mp hnone
      · simp [scoreClass, hc, List.filter_cons]
    · rw [insertLe, if_neg hy]
      rw [scoreClass, List.filter_cons, scoreClass, List.filter_cons]
      rw [← scoreClass, ← scoreClass, ih hp'.2]
      by_cases hyr : y.score = r <;> simp [hyr]

/-- Folding stable insertions concatenates score classes. -/
theorem scoreClass_insertAllFrom (r : Rat) :
    ∀ (s p : List Caption), sortedDesc p →
      scoreClass r (insertAllFrom p s) = scoreClass r p ++ scoreClass r s := by
  intro s
  induction s with
  | nil =>
    intro p hp
    simp [insertAllFrom, scoreClass]
  | cons c s ih =>
    intro p hp
    show scoreClass r (insertAllFrom (insertLe c p) s) = _
    rw [ih (insertLe c p) (sortedDesc_insertLe c p hp)]
    rw [scoreClass_insertLe r c p hp]
    rw [show scoreClass r (c :: s) =
      (if c.score = r then [c] else []) ++ scoreClass r s by
        by_cases hc : c.score = r <;> simp [scoreClass, List.filter_cons, hc]]
    simp [List.append_assoc]

/-- Stable insertion permutes to consing. -/
theorem perm_insertLe (c : Caption) (p : List Caption) :
    List.Perm (insertLe c p) (c :: p) := by
  induction p with
  | nil => rfl
  | cons y p ih =>
    by_cases hy : lessC c y
    · rw [insertLe, if_pos hy]
    · rw [insertLe, if_neg hy]
      exact (ih.cons y).trans (List.Perm.swap c y p)

/-- The full fold permutes to concatenation. -/
theorem perm_insertAllFrom :
    ∀ (s p : List Caption), List.Perm (insertAllFrom p s) (p ++ s) := by
  intro s
  induction s with
  | nil => intro p; simp [insertAllFrom]
  | cons c s ih =>
    intro p
    show List.Perm (insertAllFrom (insertLe c p) s) _
    refine (ih (insertLe c p)).trans ?_
    refine (List.Perm.append_right s (perm_insertLe c p)).trans ?_
    exact List.perm_middle.symm

/-- C4 (amended): for a CaptionResponse with at most 12 captions — the
range where Go sort.Slice delegates to insertion sort — the presented
options list the captions sorted by score in descending order, as a
permutation of the input, and any two captions with equal score keep
their input order (every score class is preserved verbatim); for 13 or
more captions sort.Slice runs full pdqsort and equal-score captions can
be reordered. -/
theorem C4_amended_sorted_options (resp : CaptionResponse)
    (h : resp.captions.length ≤ 12) :
    sortedDesc (presentedCaptions resp) ∧
    List.Perm (presentedCaptions resp) resp.captions ∧
    (∀ r : Rat, scoreClass r (presentedCaptions resp) =
      scoreClass r resp.captions) ∧
    buildTitleOptions (presentedCaptions resp) =
      (presentedCaptions resp).mapIdx displayOption ++
        [customTitleOption, skipDocumentOption, makeOcrAndTryAgainOption] := by
  have hg : presentedCaptions resp = stableSortGo resp.captions :=
    goSortCaptions_small resp.captions h
  refine ⟨?_, ?_, ?_, rfl⟩
  · rw [hg]
    exact sortedDesc_insertAllFrom resp.captions [] List.Pairwise.nil
  · rw [hg]
    simpa using perm_insertAllFrom resp.captions []
  · intro r
    rw [hg, stableSortGo, scoreClass_insertAllFrom r resp.captions []
      List.Pairwise.nil]
    simp [scoreClass]

set_option maxRecDepth 10000 in
/-- C4 (counterexample): on a 13-caption response Go sort.Slice runs
full pdqsort, whose partition step swaps equal-score captions across
the pivot: the presented options are sorted by score descending, but
the score-5 captions come out as (c3, c0) although the input order was
(c0, c3) — and likewise the score-9 pair — so equal-score captions do
not keep their input order and the claimed stability fails. -/
theorem C4_counterexample :
    presentedCaptions resp13 =
      [{ caption := "c7", score := 10 }, { caption := "c6", score := 9 },
       { caption := "c1", score := 9 }, { caption := "c2", score := 8 },
       { caption := "c4", score := 7 }, { caption := "c5", score := 6 },
       { caption := "c3", score := 5 }, { caption := "c0", score := 5 },
       { caption := "c9", score := 4 }, { caption := "c8", score := 3 },
       { caption := "c10", score := 2 }, { caption := "c11", score := 1 },
       { caption := "c12", score := 0 }] ∧
    scoreClass 5 resp13.captions =
      [{ caption := "c0", score := 5 }, { caption := "c3", score := 5 }] ∧
    scoreClass 5 (presentedCaptions resp13) =
      [{ caption := "c3", score := 5 }, { caption := "c0", score := 5 }] ∧
    ({ caption := "c0", score := 5 } : Caption) ≠
      { caption := "c3", score := 5 } := by
  refine ⟨by decide, by decide, by decide, by decide⟩

/-- C4 (witness): a 3-caption response with a score tie is presented
sorted descending with the tie in input order (B1 before B2). -/
theorem C4_amended_witness :
    presentedCaptions resp3 =
      [{ caption := "A", score := 2 }, { caption := "B1", score := 1 },
       { caption := "B2", score := 1 }] ∧
    scoreClass 1 (presentedCaptions resp3) = scoreClass 1 resp3.captions ∧
    scoreClass 1 resp3.captions =
      [{ caption := "B1", score := 1 }, { caption := "B2", score := 1 }] :=
  ⟨by decide, (C4_amended_sorted_options resp3 (by decide)).2.2.1 1, by decide⟩

end PaperlessAI
